import Mathlib

/-!
# The command orchestrator `TPM2_Demo` of `examples/tpm/tpm2_demo.c`

`TPM2_Demo` is a straight-line sequence of calls into the TPM library, the wolfCrypt random
source and the wolfCrypt hash, with a `goto exit` after every checked call.  The library, the
device behind it, the random source and the hash are external: the embedding takes their answers
from an environment `Env` holding, for every call site of the function, the status and the
outputs the callee hands back (the program is sequential and deterministic, so a run is fixed by
the answers it receives; the loop call site is answered per iteration and the hash per argument
list).

A run is the sequence of external calls made, in order, each with the arguments the function
built for it and the answer it received, ended by the value returned by `TPM2_Demo`.
The diagnostic output (`printf`, `TPM2_PrintBin`) is never read back and is not part of the trace.
-/

namespace TPM2Demo

/-! ## Constants of the headers

The headers `wolftpm/tpm2.h` and the wolfCrypt headers are not among the sources.  The values
below are the ones fixed by the TPM 2.0 library specification (Part 2, Structures), which the
header transcribes. -/

/-- Byte buffers are lists of byte values. -/
abbrev Bytes := List Nat

/-- The bytes at the indices `0 .. n-1` of a C byte array whose byte at index `i` is `a i`. -/
def arrayBytes (a : Nat → Nat) (n : Nat) : Bytes := (List.range n).map a

/-- Modelled from the spec: the status constant `TPM_RC_SUCCESS` of `wolftpm/tpm2.h`
("zero indicates full pipeline success"). -/
def TPM_RC_SUCCESS : Int := 0

/-- Modelled from the spec: the "already started" status `TPM_RC_INITIALIZE` of `wolftpm/tpm2.h`
(`RC_VER1 + 0x000` in TPM 2.0 Part 2). -/
def TPM_RC_INITIALIZE : Int := 0x100

/-- Modelled from the spec: the generic failure status `TPM_RC_FAILURE` of `wolftpm/tpm2.h`
(`RC_VER1 + 0x001`); only used as a sample non-success status. -/
def TPM_RC_FAILURE : Int := 0x101

/-- Modelled from the spec: header constant `TPM_SU_CLEAR` (clean startup and shutdown variant). -/
def TPM_SU_CLEAR : Nat := 0

/-- Modelled from the spec: header constant `YES`. -/
def YES : Nat := 1

/-- Modelled from the spec: header constant `TPM_ALG_RSA`. -/
def TPM_ALG_RSA : Nat := 0x0001

/-- Modelled from the spec: header constant `TPM_ALG_SHA1`, the secondary hash algorithm. -/
def TPM_ALG_SHA1 : Nat := 0x0004

/-- Modelled from the spec: header constant `TPM_ALG_AES`. -/
def TPM_ALG_AES : Nat := 0x0006

/-- Modelled from the spec: header constant `TPM_ALG_SHA256`, the algorithm of the session. -/
def TPM_ALG_SHA256 : Nat := 0x000B

/-- Modelled from the spec: header constant `TPM_ALG_NULL`. -/
def TPM_ALG_NULL : Nat := 0x0010

/-- Modelled from the spec: header constant `TPM_ALG_CFB`. -/
def TPM_ALG_CFB : Nat := 0x0043

/-- Modelled from the spec: header constant `TPM_CAP_TPM_PROPERTIES`. -/
def TPM_CAP_TPM_PROPERTIES : Nat := 0x00000006

/-- Modelled from the spec: header constant `TPM_PT_FAMILY_INDICATOR` (`PT_FIXED + 0`). -/
def TPM_PT_FAMILY_INDICATOR : Nat := 0x100

/-- Modelled from the spec: header constant `TPM_PT_PCR_COUNT` (`PT_FIXED + 18`), the property
holding the register count. -/
def TPM_PT_PCR_COUNT : Nat := 0x112

/-- Modelled from the spec: header constant `TPM_RH_NULL`, the "no session" handle. -/
def TPM_RH_NULL : Nat := 0x40000007

/-- Modelled from the spec: header constant `TPM_RS_PW`, the password session handle. -/
def TPM_RS_PW : Nat := 0x40000009

/-- Modelled from the spec: header constant `TPM_RH_ENDORSEMENT`, the endorsement hierarchy. -/
def TPM_RH_ENDORSEMENT : Nat := 0x4000000B

/-- Modelled from the spec: header constant `TPM_SE_POLICY`, the policy session kind. -/
def TPM_SE_POLICY : Nat := 0x01

/-- Modelled from the spec: header constant `TPMA_OBJECT_fixedTPM`. -/
def TPMA_OBJECT_fixedTPM : Nat := 0x00000002

/-- Modelled from the spec: header constant `TPMA_OBJECT_fixedParent`. -/
def TPMA_OBJECT_fixedParent : Nat := 0x00000010

/-- Modelled from the spec: header constant `TPMA_OBJECT_sensitiveDataOrigin`. -/
def TPMA_OBJECT_sensitiveDataOrigin : Nat := 0x00000020

/-- Modelled from the spec: header constant `TPMA_OBJECT_adminWithPolicy`. -/
def TPMA_OBJECT_adminWithPolicy : Nat := 0x00000080

/-- Modelled from the spec: header constant `TPMA_OBJECT_restricted`. -/
def TPMA_OBJECT_restricted : Nat := 0x00010000

/-- Modelled from the spec: header constant `TPMA_OBJECT_decrypt`. -/
def TPMA_OBJECT_decrypt : Nat := 0x00020000

/-- Modelled from the spec: header constant `MAX_RSA_KEY_BITS`. -/
def MAX_RSA_KEY_BITS : Nat := 2048

/-- Modelled from the spec: wolfCrypt constant `WC_SHA256_DIGEST_SIZE` ("the reference size used
throughout is 32 bytes"). -/
def WC_SHA256_DIGEST_SIZE : Nat := 32

/-- Modelled from the spec: the wolfCrypt hash selector; the function only ever passes
`WC_HASH_TYPE_SHA256`. -/
inductive wc_HashType
  | WC_HASH_TYPE_SHA256
deriving DecidableEq, Repr

/-- The policy digest constant of lines 126-132, "PolicySecret(TPM_RH_ENDORSEMENT)". -/
def TPM_20_EK_AUTH_POLICY : Bytes :=
  [0x83, 0x71, 0x97, 0x67, 0x44, 0x84, 0xb3, 0xf8,
   0x1a, 0x90, 0xcc, 0x8d, 0x46, 0xa5, 0xd7, 0x24,
   0xfd, 0x52, 0xd7, 0x6e, 0x06, 0x52, 0x0b, 0x64,
   0xf2, 0xa1, 0xda, 0x1b, 0x33, 0x14, 0x69, 0xaa]

/-- The macro `RAND_GET_SZ` of line 134. -/
def RAND_GET_SZ : Nat := 32

/-- The conversion of a 32-bit unsigned value to `int` performed by the assignment
`pcrCount = tpmProp->tpmProperty[0].value` (wrap-around to the signed 32-bit range). -/
def toInt32 (v : Nat) : Int :=
  if v % 2 ^ 32 < 2 ^ 31 then ((v % 2 ^ 32 : Nat) : Int) else ((v % 2 ^ 32 : Nat) : Int) - 2 ^ 32

/-! ## Command structures -/

/-- Modelled from the spec: the register selection built by the library helper
`TPM2_SetupPCRSel`, which is not among the sources ("builds a register-selection structure
containing one index", grouped by hash algorithm). -/
structure TPML_PCR_SELECTION where
  hash : Nat
  pcrIndex : Int
deriving DecidableEq, Repr

/-- Modelled from the spec: the library helper `TPM2_SetupPCRSel (sel, alg, pcrIndex)` selects
the single register `pcrIndex` under the algorithm `alg`. -/
def TPM2_SetupPCRSel (alg : Nat) (pcrIndex : Int) : TPML_PCR_SELECTION :=
  { hash := alg, pcrIndex := pcrIndex }

/-- The members of `PCR_Extend_In` written at lines 310-316; every other byte of the structure
is zero after the `XMEMSET`. -/
structure PCR_Extend_In where
  pcrHandle : Int
  digests_count : Nat
  digests_0_hashAlg : Nat
  digests_0_digest_H : Bytes
deriving DecidableEq, Repr

/-- The members of `StartAuthSession_In` written at lines 338-346; every other byte of the
structure is zero after the `XMEMSET`. -/
structure StartAuthSession_In where
  tpmKey : Nat
  bind : Nat
  sessionType : Nat
  symmetric_algorithm : Nat
  authHash : Nat
  nonceCaller_size : Nat
  nonceCaller_buffer : Bytes
deriving DecidableEq, Repr

/-- The members of `PolicyPCR_In`, all written at lines 389-392. -/
structure PolicyPCR_In where
  policySession : Nat
  pcrDigest_size : Nat
  pcrDigest_buffer : Bytes
  pcrs : TPML_PCR_SELECTION
deriving DecidableEq, Repr

/-- The scalar members and bytes of `CreatePrimary_In`.  The constructors with a name are the
members assigned at lines 413-429 (all but `primaryHandle` live under `inPublic.publicArea`,
the `rsaDetail` ones under its `parameters`); `other` stands for any further member or byte of
the structure (`inSensitive`, `outsideInfo`, `creationPCR`, the size of `inPublic`, ...), whose
declaration is in the header. -/
inductive CreatePrimaryField
  | primaryHandle
  | authPolicy_buffer (i : Nat)
  | authPolicy_size
  | unique_rsa_size
  | type
  | nameAlg
  | objectAttributes
  | rsaDetail_keyBits
  | rsaDetail_exponent
  | rsaDetail_scheme_scheme
  | rsaDetail_symmetric_algorithm
  | rsaDetail_symmetric_keyBits_aes
  | rsaDetail_symmetric_mode_aes
  | other (member : String) (i : Nat)
deriving DecidableEq, Repr

/-- The content of `cmdIn.create`: a value for every member of the structure. -/
abbrev CreatePrimary_In := CreatePrimaryField → Nat

/-- The effect of `XMEMSET (&cmdIn.create, 0, sizeof (cmdIn.create))`. -/
def XMEMSET_zero : CreatePrimary_In := fun _ => 0

/-- An assignment `cmdIn.create.f = v`. -/
def assign (c : CreatePrimary_In) (f : CreatePrimaryField) (v : Nat) : CreatePrimary_In :=
  fun g => if g = f then v else c g

/-- The effect of `XMEMCPY (cmdIn.create.inPublic.publicArea.authPolicy.buffer, src, n)`. -/
def XMEMCPY_authPolicy (c : CreatePrimary_In) (src : Bytes) (n : Nat) : CreatePrimary_In :=
  fun g =>
    match g with
    | .authPolicy_buffer i => if i < n then src.getD i 0 else c g
    | _ => c g

/-- The members of `cmdIn.create` that lines 413-429 assign. -/
def CreatePrimaryField.assigned : CreatePrimaryField → Bool
  | .other _ _ => false
  | .authPolicy_buffer i => decide (i < TPM_20_EK_AUTH_POLICY.length)
  | _ => true

/-- Lines 412-429: the command passed to `TPM2_CreatePrimary`. -/
def createPrimaryCmd : CreatePrimary_In :=
  let c := XMEMSET_zero
  let c := assign c .primaryHandle TPM_RH_ENDORSEMENT
  let c := XMEMCPY_authPolicy c TPM_20_EK_AUTH_POLICY TPM_20_EK_AUTH_POLICY.length
  let c := assign c .authPolicy_size TPM_20_EK_AUTH_POLICY.length
  let c := assign c .unique_rsa_size (MAX_RSA_KEY_BITS / 8)
  let c := assign c .type TPM_ALG_RSA
  let c := assign c .nameAlg TPM_ALG_SHA256
  let c := assign c .objectAttributes (TPMA_OBJECT_fixedTPM |||
    TPMA_OBJECT_fixedParent ||| TPMA_OBJECT_sensitiveDataOrigin |||
    TPMA_OBJECT_adminWithPolicy ||| TPMA_OBJECT_restricted |||
    TPMA_OBJECT_decrypt)
  let c := assign c .rsaDetail_keyBits MAX_RSA_KEY_BITS
  let c := assign c .rsaDetail_exponent 0
  let c := assign c .rsaDetail_scheme_scheme TPM_ALG_NULL
  let c := assign c .rsaDetail_symmetric_algorithm TPM_ALG_AES
  let c := assign c .rsaDetail_symmetric_keyBits_aes 128
  let c := assign c .rsaDetail_symmetric_mode_aes TPM_ALG_CFB
  c

/-! ## Environment, events and runs -/

/-- The answers of the external functions, one entry per call site of `TPM2_Demo`: the returned
status as stored in `int rc`, then the outputs the function reads afterwards.
`TPM2_PCR_Read_loop i` answers the read of iteration `i` of the loop at lines 292-306,
`wc_Hash` answers per argument list: hash type, content of the array behind `data`, `data_len`
and `hash_len`.  The local arrays `byte pcr[WC_SHA256_DIGEST_SIZE]` and
`byte hash[WC_SHA256_DIGEST_SIZE]` are answered with the byte at each index, of which the
function holds the 32 of the array.  `gSpiDev` is the value of the transport descriptor at the
`exit` label, `none` when `TPM2_SPI_DEV` is not defined. -/
structure Env where
  wc_InitRng : Int
  TPM2_Init : Int
  TPM2_Startup : Int
  TPM2_SelfTest : Int
  TPM2_GetTestResult : Int
  TPM2_IncrementalSelfTest : Int
  /-- status and `tpmProperty[0].value` of the family query (lines 249-259) -/
  TPM2_GetCapability_family : Int × Nat
  /-- status and `tpmProperty[0].value` of the register count query (lines 261-271) -/
  TPM2_GetCapability_pcrCount : Int × Nat
  /-- status and `randomBytes.size` -/
  TPM2_GetRandom : Int × Nat
  TPM2_PCR_Read_loop : Int → Int
  TPM2_PCR_Extend : Int
  /-- status of the read after the extend (line 324) -/
  TPM2_PCR_Read_verify : Int
  /-- status and the bytes written to `nonceCaller.buffer` -/
  wc_RNG_GenerateBlock : Int × Bytes
  /-- status and `sessionHandle` -/
  TPM2_StartAuthSession : Int × Nat
  /-- status and `policyDigest` -/
  TPM2_PolicyGetDigest : Int × Bytes
  /-- status, byte at each index of `pcr` and value of `int pcr_len` after the call -/
  wolfTPM_ReadPCR : Int × (Nat → Nat) × Int
  /-- status and byte at each index of `hash` after the call, per `hash_type`, content of the
  array behind `data`, `data_len` and `hash_len` -/
  wc_Hash : wc_HashType → Bytes → Int → Nat → Int × (Nat → Nat)
  TPM2_PolicyPCR : Int
  TPM2_FlushContext : Int
  /-- status and `objectHandle` -/
  TPM2_CreatePrimary : Int × Nat
  TPM2_Shutdown : Int
  gSpiDev : Option Int

/-- One external call: the arguments `TPM2_Demo` built, the status it received (`rc`) and
the outputs it reads (`out`). -/
inductive Event
  | wolfCrypt_Init
  | wc_InitRng (rc : Int)
  | TPM2_Init (rc : Int)
  | TPM2_SetSessionAuth (sessionHandle : Nat) (auth_size : Nat)
  | TPM2_Startup (startupType : Nat) (rc : Int)
  | TPM2_SelfTest (fullTest : Nat) (rc : Int)
  | TPM2_GetTestResult (rc : Int)
  | TPM2_IncrementalSelfTest (toTest_count : Nat) (toTest_algorithms_0 : Nat) (rc : Int)
  | TPM2_GetCapability (capability property propertyCount : Nat) (rc : Int) (out : Nat)
  | TPM2_GetRandom (bytesRequested : Nat) (rc : Int) (out : Nat)
  | TPM2_PCR_Read (pcrSelectionIn : TPML_PCR_SELECTION) (rc : Int)
  | TPM2_PCR_Extend (cmd : PCR_Extend_In) (rc : Int)
  | wc_RNG_GenerateBlock (sz : Nat) (rc : Int) (out : Bytes)
  | TPM2_StartAuthSession (cmd : StartAuthSession_In) (rc : Int) (out : Nat)
  | TPM2_PolicyGetDigest (policySession : Nat) (rc : Int) (out : Bytes)
  | wolfTPM_ReadPCR (pcrIndex : Int) (alg : Nat) (rc : Int) (pcr : Bytes) (pcr_len : Int)
  | wc_Hash (hash_type : wc_HashType) (data : Bytes) (data_len : Int) (hash_len : Nat)
      (rc : Int) (hash : Bytes)
  | TPM2_PolicyPCR (cmd : PolicyPCR_In) (rc : Int)
  | TPM2_FlushContext (flushHandle : Nat) (rc : Int)
  | TPM2_CreatePrimary (cmd : CreatePrimary_In) (rc : Int) (out : Nat)
  | TPM2_Shutdown (shutdownType : Nat) (rc : Int)
  | wc_FreeRng
  | wolfCrypt_Cleanup
  | close (fd : Int)

/-- A run of `TPM2_Demo`: external calls, in order, ended by the return of a value. -/
inductive Run
  | returns (rc : Int)
  | call (ev : Event) (k : Run)

/-- The external calls of a run, in order. -/
def Run.trace : Run → List Event
  | .returns _ => []
  | .call ev k => ev :: k.trace

/-- The value the run returns. -/
def Run.ret : Run → Int
  | .returns rc => rc
  | .call _ k => k.ret

/-- The calls `evs` followed by the run `r`. -/
def Run.after : List Event → Run → Run
  | [], r => r
  | ev :: evs, r => Run.call ev (Run.after evs r)

/-! ## The function -/

/-- The `exit` label, lines 457-468, entered with the value `rc`. -/
def exit_ (e : Env) (rc : Int) : Run :=
  Run.after ([Event.wc_FreeRng, Event.wolfCrypt_Cleanup] ++
      (match e.gSpiDev with
       | some fd => if fd ≥ 0 then [Event.close fd] else []
       | none => []))
    (Run.returns rc)

/-- Lines 411-455: CreatePrimary, then Shutdown, then the `exit` label. -/
def createPrimaryAndShutdown (e : Env) : Run :=
  let rc := e.TPM2_CreatePrimary.1
  Run.after [Event.TPM2_CreatePrimary createPrimaryCmd rc e.TPM2_CreatePrimary.2] <|
  if rc ≠ TPM_RC_SUCCESS then exit_ e rc else
  let rc := e.TPM2_Shutdown
  Run.after [Event.TPM2_Shutdown TPM_SU_CLEAR rc] <|
  if rc ≠ TPM_RC_SUCCESS then exit_ e rc else
  exit_ e rc

/-- Lines 337-408: the policy session, from StartAuthSession to FlushContext.  `pcr` and
`hash` are the 32-byte arrays of lines 179 and 181.  Line 379 hands `wc_Hash` the array `pcr`
and the value of `pcr_len` as `wolfTPM_ReadPCR` left it, without a check against the size of
the array; line 391 copies the `hash_len` = 32 bytes of `hash`.
The local `sessionHandle` (set at line 356, reset to `TPM_RH_NULL` at line 408) is only read
by the commands of this part; the `exit` label does not read it. -/
def policySession (e : Env) : Run :=
  let nonceCaller_size := WC_SHA256_DIGEST_SIZE
  let rc := e.wc_RNG_GenerateBlock.1
  Run.after [Event.wc_RNG_GenerateBlock nonceCaller_size rc e.wc_RNG_GenerateBlock.2] <|
  if rc < 0 then exit_ e rc else
  let authSes : StartAuthSession_In :=
    { tpmKey := TPM_RH_NULL, bind := TPM_RH_NULL, sessionType := TPM_SE_POLICY,
      symmetric_algorithm := TPM_ALG_NULL, authHash := TPM_ALG_SHA256,
      nonceCaller_size := nonceCaller_size,
      nonceCaller_buffer := e.wc_RNG_GenerateBlock.2 }
  let rc := e.TPM2_StartAuthSession.1
  Run.after [Event.TPM2_StartAuthSession authSes rc e.TPM2_StartAuthSession.2] <|
  if rc ≠ TPM_RC_SUCCESS then exit_ e rc else
  let sessionHandle := e.TPM2_StartAuthSession.2
  let rc := e.TPM2_PolicyGetDigest.1
  Run.after [Event.TPM2_PolicyGetDigest sessionHandle rc e.TPM2_PolicyGetDigest.2] <|
  if rc ≠ TPM_RC_SUCCESS then exit_ e rc else
  let pcrIndex : Int := 0
  let rc := e.wolfTPM_ReadPCR.1
  let pcr := arrayBytes e.wolfTPM_ReadPCR.2.1 WC_SHA256_DIGEST_SIZE
  let pcr_len := e.wolfTPM_ReadPCR.2.2
  Run.after [Event.wolfTPM_ReadPCR pcrIndex TPM_ALG_SHA1 rc pcr pcr_len] <|
  if rc ≠ TPM_RC_SUCCESS then exit_ e rc else
  let hash_len := WC_SHA256_DIGEST_SIZE
  let rc := (e.wc_Hash .WC_HASH_TYPE_SHA256 pcr pcr_len hash_len).1
  let hash := arrayBytes (e.wc_Hash .WC_HASH_TYPE_SHA256 pcr pcr_len hash_len).2
    WC_SHA256_DIGEST_SIZE
  Run.after [Event.wc_Hash .WC_HASH_TYPE_SHA256 pcr pcr_len hash_len rc hash] <|
  if rc < 0 then exit_ e rc else
  let pcrIndex : Int := 0
  let policyPCR : PolicyPCR_In :=
    { policySession := sessionHandle, pcrDigest_size := hash_len,
      pcrDigest_buffer := hash.take hash_len,
      pcrs := TPM2_SetupPCRSel TPM_ALG_SHA1 pcrIndex }
  let rc := e.TPM2_PolicyPCR
  Run.after [Event.TPM2_PolicyPCR policyPCR rc] <|
  if rc ≠ TPM_RC_SUCCESS then exit_ e rc else
  let rc := e.TPM2_FlushContext
  Run.after [Event.TPM2_FlushContext sessionHandle rc] <|
  if rc ≠ TPM_RC_SUCCESS then exit_ e rc else
  createPrimaryAndShutdown e

/-- The loop of lines 292-306, `for (i=0; i<pcrCount; i++)`, from the iteration with counter
`i`: the reads issued and `some rc` when a read failed (`goto exit`), `none` when the loop ran
to its end.  The argument of type `Nat` bounds the number of iterations left;
`pcrReadLoop_fuel` shows that `(pcrCount - i).toNat` is enough, so the bound never cuts the
loop short. -/
def pcrReadLoop (e : Env) (pcrCount : Int) : Nat → Int → List Event × Option Int
  | 0, _ => ([], none)
  | fuel + 1, i =>
    if i < pcrCount then
      let pcrIndex := i
      let rc := e.TPM2_PCR_Read_loop pcrIndex
      let ev := Event.TPM2_PCR_Read (TPM2_SetupPCRSel TPM_ALG_SHA256 pcrIndex) rc
      if rc ≠ TPM_RC_SUCCESS then ([ev], some rc)
      else
        let r := pcrReadLoop e pcrCount fuel (i + 1)
        (ev :: r.1, r.2)
    else ([], none)

/-- Lines 291-334: the read loop, the extend of register 0 and the read after it. -/
def pcrReadAndExtend (e : Env) (pcrCount : Int) : Run :=
  let loop := pcrReadLoop e pcrCount pcrCount.toNat 0
  Run.after loop.1 <|
  match loop.2 with
  | some rc => exit_ e rc
  | none =>
  let pcrIndex : Int := 0
  let pcrExtend : PCR_Extend_In :=
    { pcrHandle := pcrIndex, digests_count := 1, digests_0_hashAlg := TPM_ALG_SHA256,
      digests_0_digest_H := List.range WC_SHA256_DIGEST_SIZE }
  let rc := e.TPM2_PCR_Extend
  Run.after [Event.TPM2_PCR_Extend pcrExtend rc] <|
  if rc ≠ TPM_RC_SUCCESS then exit_ e rc else
  let rc := e.TPM2_PCR_Read_verify
  Run.after [Event.TPM2_PCR_Read (TPM2_SetupPCRSel TPM_ALG_SHA256 pcrIndex) rc] <|
  if rc ≠ TPM_RC_SUCCESS then exit_ e rc else
  policySession e

/-- Lines 220-288: the self tests, the capability queries and GetRandom. -/
def selfTestAndCapabilities (e : Env) : Run :=
  let rc := e.TPM2_SelfTest
  Run.after [Event.TPM2_SelfTest YES rc] <|
  if rc ≠ TPM_RC_SUCCESS then exit_ e rc else
  let rc := e.TPM2_GetTestResult
  Run.after [Event.TPM2_GetTestResult rc] <|
  if rc ≠ TPM_RC_SUCCESS then exit_ e rc else
  let rc := e.TPM2_IncrementalSelfTest
  Run.after [Event.TPM2_IncrementalSelfTest 1 TPM_ALG_RSA rc] <|
  let rc := e.TPM2_GetCapability_family.1
  Run.after [Event.TPM2_GetCapability TPM_CAP_TPM_PROPERTIES TPM_PT_FAMILY_INDICATOR 1 rc
    e.TPM2_GetCapability_family.2] <|
  if rc ≠ TPM_RC_SUCCESS then exit_ e rc else
  let rc := e.TPM2_GetCapability_pcrCount.1
  Run.after [Event.TPM2_GetCapability TPM_CAP_TPM_PROPERTIES TPM_PT_PCR_COUNT 1 rc
    e.TPM2_GetCapability_pcrCount.2] <|
  if rc ≠ TPM_RC_SUCCESS then exit_ e rc else
  let pcrCount := toInt32 e.TPM2_GetCapability_pcrCount.2
  let rc := e.TPM2_GetRandom.1
  Run.after [Event.TPM2_GetRandom RAND_GET_SZ rc e.TPM2_GetRandom.2] <|
  if rc ≠ TPM_RC_SUCCESS then exit_ e rc else
  if e.TPM2_GetRandom.2 ≠ RAND_GET_SZ then exit_ e rc else
  pcrReadAndExtend e pcrCount

/-- The function `TPM2_Demo` (lines 136-469); lines 190-217 are spelled out here, the rest in
`selfTestAndCapabilities`, `pcrReadAndExtend`, `policySession` and
`createPrimaryAndShutdown`. -/
def TPM2_Demo (e : Env) : Run :=
  let rc := e.wc_InitRng
  Run.after [Event.wolfCrypt_Init, Event.wc_InitRng rc] <|
  if rc < 0 then Run.returns rc else
  let rc := e.TPM2_Init
  Run.after [Event.TPM2_Init rc] <|
  if rc ≠ TPM_RC_SUCCESS then exit_ e rc else
  let rc := e.TPM2_Startup
  Run.after [Event.TPM2_SetSessionAuth TPM_RS_PW 32, Event.TPM2_Startup TPM_SU_CLEAR rc] <|
  if rc ≠ TPM_RC_SUCCESS ∧ rc ≠ TPM_RC_INITIALIZE then exit_ e rc else
  selfTestAndCapabilities e

/-! ## Observations on events -/

/-- The commands sent to the device: the TPM commands and the wrapper `wolfTPM_ReadPCR`, which
reads a register.  Library set-up (`TPM2_Init`, `TPM2_SetSessionAuth`), wolfCrypt calls and
`close` are not device commands. -/
def Event.isDeviceCmd : Event → Bool
  | .TPM2_Startup _ _ => true
  | .TPM2_SelfTest _ _ => true
  | .TPM2_GetTestResult _ => true
  | .TPM2_IncrementalSelfTest _ _ _ => true
  | .TPM2_GetCapability _ _ _ _ _ => true
  | .TPM2_GetRandom _ _ _ => true
  | .TPM2_PCR_Read _ _ => true
  | .TPM2_PCR_Extend _ _ => true
  | .TPM2_StartAuthSession _ _ _ => true
  | .TPM2_PolicyGetDigest _ _ _ => true
  | .wolfTPM_ReadPCR _ _ _ _ _ => true
  | .TPM2_PolicyPCR _ _ => true
  | .TPM2_FlushContext _ _ => true
  | .TPM2_CreatePrimary _ _ _ => true
  | .TPM2_Shutdown _ _ => true
  | _ => false

/-- The status a device command returned. -/
def Event.status : Event → Int
  | .TPM2_Startup _ rc => rc
  | .TPM2_SelfTest _ rc => rc
  | .TPM2_GetTestResult rc => rc
  | .TPM2_IncrementalSelfTest _ _ rc => rc
  | .TPM2_GetCapability _ _ _ rc _ => rc
  | .TPM2_GetRandom _ rc _ => rc
  | .TPM2_PCR_Read _ rc => rc
  | .TPM2_PCR_Extend _ rc => rc
  | .TPM2_StartAuthSession _ rc _ => rc
  | .TPM2_PolicyGetDigest _ rc _ => rc
  | .wolfTPM_ReadPCR _ _ rc _ _ => rc
  | .TPM2_PolicyPCR _ rc => rc
  | .TPM2_FlushContext _ rc => rc
  | .TPM2_CreatePrimary _ rc _ => rc
  | .TPM2_Shutdown _ rc => rc
  | .wc_InitRng rc => rc
  | .TPM2_Init rc => rc
  | .wc_RNG_GenerateBlock _ rc _ => rc
  | .wc_Hash _ _ _ _ rc _ => rc
  | _ => 0

/-- The Startup command. -/
def Event.isStartup : Event → Bool
  | .TPM2_Startup _ _ => true
  | _ => false

/-- The IncrementalSelfTest command. -/
def Event.isIncrementalSelfTest : Event → Bool
  | .TPM2_IncrementalSelfTest _ _ _ => true
  | _ => false

/-- A device command that returned a non-success status, the already-started status of
Startup not counting as one. -/
def Event.cmdFailed (ev : Event) : Bool :=
  ev.isDeviceCmd && decide (ev.status ≠ TPM_RC_SUCCESS) &&
    !(ev.isStartup && decide (ev.status = TPM_RC_INITIALIZE))

/-- A FlushContext for the handle `h`. -/
def Event.isFlushOf (h : Nat) : Event → Bool
  | .TPM2_FlushContext h2 _ => h2 == h
  | _ => false

/-- A PolicyGetDigest command. -/
def Event.isPolicyGetDigest : Event → Bool
  | .TPM2_PolicyGetDigest _ _ _ => true
  | _ => false

/-- A PolicyPCR command. -/
def Event.isPolicyPCR : Event → Bool
  | .TPM2_PolicyPCR _ _ => true
  | _ => false

/-- A FlushContext command. -/
def Event.isFlushContext : Event → Bool
  | .TPM2_FlushContext _ _ => true
  | _ => false

/-- A PCR_Read command. -/
def Event.isPCR_Read : Event → Bool
  | .TPM2_PCR_Read _ _ => true
  | _ => false

/-- A Shutdown command. -/
def Event.isShutdown : Event → Bool
  | .TPM2_Shutdown _ _ => true
  | _ => false

/-- The call `wolfCrypt_Cleanup`. -/
def Event.isCleanup : Event → Bool
  | .wolfCrypt_Cleanup => true
  | _ => false

/-- The call `wc_FreeRng`. -/
def Event.isFreeRng : Event → Bool
  | .wc_FreeRng => true
  | _ => false

/-- The register index a command names: the selection of a read, the handle of an extend,
the index given to the wrapper, the selection bound by PolicyPCR. -/
def Event.pcrIndex : Event → Option Int
  | .TPM2_PCR_Read sel _ => some sel.pcrIndex
  | .TPM2_PCR_Extend cmd _ => some cmd.pcrHandle
  | .wolfTPM_ReadPCR idx _ _ _ _ => some idx
  | .TPM2_PolicyPCR cmd _ => some cmd.pcrs.pcrIndex
  | _ => none

/-- A StartAuthSession that succeeded and returned the handle `h`. -/
def Event.isSessionStarted (h : Nat) : Event → Bool
  | .TPM2_StartAuthSession _ rc out => decide (rc = TPM_RC_SUCCESS) && out == h
  | _ => false

/-- The part of the function a call belongs to: 0 for lines 190-288, 1 for the register part
(lines 291-334), 2 for the policy session (lines 337-408), 3 for CreatePrimary and Shutdown
(lines 411-455), 4 for the `exit` label. -/
def Event.stage : Event → Nat
  | .wolfCrypt_Init => 0
  | .wc_InitRng _ => 0
  | .TPM2_Init _ => 0
  | .TPM2_SetSessionAuth _ _ => 0
  | .TPM2_Startup _ _ => 0
  | .TPM2_SelfTest _ _ => 0
  | .TPM2_GetTestResult _ => 0
  | .TPM2_IncrementalSelfTest _ _ _ => 0
  | .TPM2_GetCapability _ _ _ _ _ => 0
  | .TPM2_GetRandom _ _ _ => 0
  | .TPM2_PCR_Read _ _ => 1
  | .TPM2_PCR_Extend _ _ => 1
  | .wc_RNG_GenerateBlock _ _ _ => 2
  | .TPM2_StartAuthSession _ _ _ => 2
  | .TPM2_PolicyGetDigest _ _ _ => 2
  | .wolfTPM_ReadPCR _ _ _ _ _ => 2
  | .wc_Hash _ _ _ _ _ _ => 2
  | .TPM2_PolicyPCR _ _ => 2
  | .TPM2_FlushContext _ _ => 2
  | .TPM2_CreatePrimary _ _ _ => 3
  | .TPM2_Shutdown _ _ => 3
  | .wc_FreeRng => 4
  | .wolfCrypt_Cleanup => 4
  | .close _ => 4

/-- A PCR_Extend command. -/
def Event.isPCR_Extend : Event → Bool
  | .TPM2_PCR_Extend _ _ => true
  | _ => false

/-- A stand-in for SHA-256: the byte at each index of a value computed from the bytes
hashed. -/
def sampleHash (input : Bytes) : Nat → Nat :=
  fun i => (input.sum + input.length + i) % 256

/-- A device with 24 registers that answers every call with success. -/
def okEnv : Env :=
  { wc_InitRng := 0, TPM2_Init := 0, TPM2_Startup := 0, TPM2_SelfTest := 0,
    TPM2_GetTestResult := 0, TPM2_IncrementalSelfTest := 0,
    TPM2_GetCapability_family := (0, 0x322E3000),
    TPM2_GetCapability_pcrCount := (0, 24),
    TPM2_GetRandom := (0, 32),
    TPM2_PCR_Read_loop := fun _ => 0,
    TPM2_PCR_Extend := 0, TPM2_PCR_Read_verify := 0,
    wc_RNG_GenerateBlock := (0, List.replicate 32 0xA5),
    TPM2_StartAuthSession := (0, 0x03000000),
    TPM2_PolicyGetDigest := (0, List.replicate 32 0),
    wolfTPM_ReadPCR := (0, fun i => if i < 20 then i + 1 else 0, 20),
    wc_Hash := fun _ data data_len _ => (0, sampleHash (data.take data_len.toNat)),
    TPM2_PolicyPCR := 0, TPM2_FlushContext := 0,
    TPM2_CreatePrimary := (0, 0x80000000),
    TPM2_Shutdown := 0,
    gSpiDev := some 3 }

/-- The sample device, with a random source that cannot be initialised (`RNG_FAILURE_E`). -/
def rngInitFailEnv : Env := { okEnv with wc_InitRng := -199 }

/-- The sample device, answering PolicyGetDigest with `TPM_RC_FAILURE`. -/
def digestFailEnv : Env := { okEnv with TPM2_PolicyGetDigest := (TPM_RC_FAILURE, []) }

/-- The sample device, answering GetRandom with success and 16 bytes instead of 32. -/
def shortRandomEnv : Env := { okEnv with TPM2_GetRandom := (TPM_RC_SUCCESS, 16) }

/-- The sample device, answering IncrementalSelfTest with `TPM_RC_FAILURE`. -/
def incFailEnv : Env := { okEnv with TPM2_IncrementalSelfTest := TPM_RC_FAILURE }

/-- The sample device, reporting a register count of `2 ^ 31`. -/
def hugeCountEnv : Env := { okEnv with TPM2_GetCapability_pcrCount := (TPM_RC_SUCCESS, 2147483648) }

/-- The sample device, reporting a register count of 0. -/
def noRegisterEnv : Env := { okEnv with TPM2_GetCapability_pcrCount := (TPM_RC_SUCCESS, 0) }

/-- The sample device, already started: Startup answers `TPM_RC_INITIALIZE`. -/
def alreadyStartedEnv : Env := { okEnv with TPM2_Startup := TPM_RC_INITIALIZE }

/-- The sample device, answering Startup with `TPM_RC_FAILURE`. -/
def startupFailEnv : Env := { okEnv with TPM2_Startup := TPM_RC_FAILURE }

/-- The sample device with 24 registers, the read of register 5 failing. -/
def readFailEnv : Env :=
  { okEnv with TPM2_PCR_Read_loop := fun i => if i = 5 then TPM_RC_FAILURE else TPM_RC_SUCCESS }

/-- The sample device, failing the SHA-1 read of register 0 made through `wolfTPM_ReadPCR`. -/
def readPCRFailEnv : Env := { okEnv with wolfTPM_ReadPCR := (TPM_RC_FAILURE, fun _ => 0, 32) }

/-- The sample device with a hash that fails (`BAD_FUNC_ARG`). -/
def hashFailEnv : Env := { okEnv with wc_Hash := fun _ _ _ _ => (-173, fun _ => 0) }

/-- The sample device, answering PolicyPCR with `TPM_RC_FAILURE`. -/
def policyPCRFailEnv : Env := { okEnv with TPM2_PolicyPCR := TPM_RC_FAILURE }

/-! ## Traces and the calls of a run

The definitions below serve the statements and proofs: predicates over the calls of a run,
the check made on each call, and the lists of calls of each part of the function when every
check passes. -/

/-- The calls made at the `exit` label. -/
def exitCalls (e : Env) : List Event :=
  [Event.wc_FreeRng, Event.wolfCrypt_Cleanup] ++
    (match e.gSpiDev with
     | some fd => if fd ≥ 0 then [Event.close fd] else []
     | none => [])

/-- The reads the loop issues from counter `i` on when the first `k` of them are issued. -/
def loopReads (e : Env) (i : Int) (k : Nat) : List Event :=
  (List.range k).map fun (j : Nat) =>
    Event.TPM2_PCR_Read (TPM2_SetupPCRSel TPM_ALG_SHA256 (i + (j : Int)))
      (e.TPM2_PCR_Read_loop (i + (j : Int)))

/-- Every call in the list satisfies `P`. -/
def TraceAll (P : Event → Prop) (l : List Event) : Prop := ∀ ev ∈ l, P ev

/-- The check `TPM2_Demo` makes on the answer of a call, as written at its call site: `rc < 0`
fails for the wolfCrypt calls, `rc != TPM_RC_SUCCESS` fails for the TPM calls, Startup also
accepts `TPM_RC_INITIALIZE`, GetRandom must also return the requested number of bytes, and
the status of IncrementalSelfTest is not checked.  Calls without a status always pass. -/
def Event.checkPassed : Event → Bool
  | .wolfCrypt_Init => true
  | .wc_InitRng rc => decide (0 ≤ rc)
  | .TPM2_Init rc => decide (rc = TPM_RC_SUCCESS)
  | .TPM2_SetSessionAuth _ _ => true
  | .TPM2_Startup _ rc => decide (rc = TPM_RC_SUCCESS ∨ rc = TPM_RC_INITIALIZE)
  | .TPM2_SelfTest _ rc => decide (rc = TPM_RC_SUCCESS)
  | .TPM2_GetTestResult rc => decide (rc = TPM_RC_SUCCESS)
  | .TPM2_IncrementalSelfTest _ _ _ => true
  | .TPM2_GetCapability _ _ _ rc _ => decide (rc = TPM_RC_SUCCESS)
  | .TPM2_GetRandom n rc out => decide (rc = TPM_RC_SUCCESS ∧ out = n)
  | .TPM2_PCR_Read _ rc => decide (rc = TPM_RC_SUCCESS)
  | .TPM2_PCR_Extend _ rc => decide (rc = TPM_RC_SUCCESS)
  | .wc_RNG_GenerateBlock _ rc _ => decide (0 ≤ rc)
  | .TPM2_StartAuthSession _ rc _ => decide (rc = TPM_RC_SUCCESS)
  | .TPM2_PolicyGetDigest _ rc _ => decide (rc = TPM_RC_SUCCESS)
  | .wolfTPM_ReadPCR _ _ rc _ _ => decide (rc = TPM_RC_SUCCESS)
  | .wc_Hash _ _ _ _ rc _ => decide (0 ≤ rc)
  | .TPM2_PolicyPCR _ rc => decide (rc = TPM_RC_SUCCESS)
  | .TPM2_FlushContext _ rc => decide (rc = TPM_RC_SUCCESS)
  | .TPM2_CreatePrimary _ rc _ => decide (rc = TPM_RC_SUCCESS)
  | .TPM2_Shutdown _ rc => decide (rc = TPM_RC_SUCCESS)
  | .wc_FreeRng => true
  | .wolfCrypt_Cleanup => true
  | .close _ => true

/-- The run `r` makes the calls of `body` in order; at the first call whose check fails it
goes to the `exit` label with the status of that call, and when every check passes it goes on
as `next`. -/
def ChecksThrough (e : Env) (body : List Event) (next r : Run) : Prop :=
  (∃ passed last rest, body = passed ++ last :: rest ∧
      TraceAll (fun ev => ev.checkPassed = true) passed ∧ last.checkPassed = false ∧
      r = Run.after (passed ++ [last]) (exit_ e last.status)) ∨
  (TraceAll (fun ev => ev.checkPassed = true) body ∧ r = Run.after body next)

/-- The value of `pcrCount` after line 270. -/
def pcrCountOf (e : Env) : Int := toInt32 e.TPM2_GetCapability_pcrCount.2

/-- The calls of lines 190-217. -/
def startCalls (e : Env) : List Event :=
  [Event.wolfCrypt_Init, Event.wc_InitRng e.wc_InitRng, Event.TPM2_Init e.TPM2_Init,
   Event.TPM2_SetSessionAuth TPM_RS_PW 32, Event.TPM2_Startup TPM_SU_CLEAR e.TPM2_Startup]

/-- The calls of lines 220-288. -/
def capCalls (e : Env) : List Event :=
  [Event.TPM2_SelfTest YES e.TPM2_SelfTest, Event.TPM2_GetTestResult e.TPM2_GetTestResult,
   Event.TPM2_IncrementalSelfTest 1 TPM_ALG_RSA e.TPM2_IncrementalSelfTest,
   Event.TPM2_GetCapability TPM_CAP_TPM_PROPERTIES TPM_PT_FAMILY_INDICATOR 1
     e.TPM2_GetCapability_family.1 e.TPM2_GetCapability_family.2,
   Event.TPM2_GetCapability TPM_CAP_TPM_PROPERTIES TPM_PT_PCR_COUNT 1
     e.TPM2_GetCapability_pcrCount.1 e.TPM2_GetCapability_pcrCount.2,
   Event.TPM2_GetRandom RAND_GET_SZ e.TPM2_GetRandom.1 e.TPM2_GetRandom.2]

/-- The extend command of lines 309-317. -/
def extendCmd : PCR_Extend_In :=
  { pcrHandle := 0, digests_count := 1, digests_0_hashAlg := TPM_ALG_SHA256,
    digests_0_digest_H := List.range WC_SHA256_DIGEST_SIZE }

/-- The calls of lines 291-334: the reads of the loop, the extend and the read after it. -/
def pcrCalls (e : Env) : List Event :=
  loopReads e 0 (pcrCountOf e).toNat ++
  [Event.TPM2_PCR_Extend extendCmd e.TPM2_PCR_Extend,
   Event.TPM2_PCR_Read (TPM2_SetupPCRSel TPM_ALG_SHA256 0) e.TPM2_PCR_Read_verify]

/-- The StartAuthSession command of lines 338-346. -/
def authSesCmd (e : Env) : StartAuthSession_In :=
  { tpmKey := TPM_RH_NULL, bind := TPM_RH_NULL, sessionType := TPM_SE_POLICY,
    symmetric_algorithm := TPM_ALG_NULL, authHash := TPM_ALG_SHA256,
    nonceCaller_size := WC_SHA256_DIGEST_SIZE,
    nonceCaller_buffer := e.wc_RNG_GenerateBlock.2 }

/-- The array `pcr` after the call of line 372. -/
def pcrArray (e : Env) : Bytes := arrayBytes e.wolfTPM_ReadPCR.2.1 WC_SHA256_DIGEST_SIZE

/-- The answer to the call of line 379: `pcr` and `pcr_len` as line 372 left them. -/
def hashAnswer (e : Env) : Int × (Nat → Nat) :=
  e.wc_Hash .WC_HASH_TYPE_SHA256 (pcrArray e) e.wolfTPM_ReadPCR.2.2 WC_SHA256_DIGEST_SIZE

/-- The array `hash` after the call of line 379. -/
def hashArray (e : Env) : Bytes := arrayBytes (hashAnswer e).2 WC_SHA256_DIGEST_SIZE

/-- The PolicyPCR command of lines 388-392. -/
def policyPCRCmd (e : Env) : PolicyPCR_In :=
  { policySession := e.TPM2_StartAuthSession.2, pcrDigest_size := WC_SHA256_DIGEST_SIZE,
    pcrDigest_buffer := (hashArray e).take WC_SHA256_DIGEST_SIZE,
    pcrs := TPM2_SetupPCRSel TPM_ALG_SHA1 0 }

/-- The calls of lines 337-408. -/
def sessionCalls (e : Env) : List Event :=
  [Event.wc_RNG_GenerateBlock WC_SHA256_DIGEST_SIZE e.wc_RNG_GenerateBlock.1
     e.wc_RNG_GenerateBlock.2,
   Event.TPM2_StartAuthSession (authSesCmd e) e.TPM2_StartAuthSession.1
     e.TPM2_StartAuthSession.2,
   Event.TPM2_PolicyGetDigest e.TPM2_StartAuthSession.2 e.TPM2_PolicyGetDigest.1
     e.TPM2_PolicyGetDigest.2,
   Event.wolfTPM_ReadPCR 0 TPM_ALG_SHA1 e.wolfTPM_ReadPCR.1 (pcrArray e)
     e.wolfTPM_ReadPCR.2.2,
   Event.wc_Hash .WC_HASH_TYPE_SHA256 (pcrArray e) e.wolfTPM_ReadPCR.2.2 WC_SHA256_DIGEST_SIZE
     (hashAnswer e).1 (hashArray e),
   Event.TPM2_PolicyPCR (policyPCRCmd e) e.TPM2_PolicyPCR,
   Event.TPM2_FlushContext e.TPM2_StartAuthSession.2 e.TPM2_FlushContext]

/-- The calls of lines 411-455. -/
def finalCalls (e : Env) : List Event :=
  [Event.TPM2_CreatePrimary createPrimaryCmd e.TPM2_CreatePrimary.1 e.TPM2_CreatePrimary.2,
   Event.TPM2_Shutdown TPM_SU_CLEAR e.TPM2_Shutdown]

/-- The calls of a run in which every check passes, up to the `exit` label. -/
def fullCalls (e : Env) : List Event :=
  startCalls e ++ (capCalls e ++ (pcrCalls e ++ (sessionCalls e ++ finalCalls e)))

/-- The calls before Shutdown in a run in which every check passes. -/
def callsBeforeShutdown (e : Env) : List Event :=
  startCalls e ++ (capCalls e ++ (pcrCalls e ++ (sessionCalls e ++
    [Event.TPM2_CreatePrimary createPrimaryCmd e.TPM2_CreatePrimary.1 e.TPM2_CreatePrimary.2])))

/-- The calls of `fullCalls` before IncrementalSelfTest. -/
def callsBeforeIncSelfTest (e : Env) : List Event :=
  startCalls e ++
    [Event.TPM2_SelfTest YES e.TPM2_SelfTest, Event.TPM2_GetTestResult e.TPM2_GetTestResult]

/-- The calls of `fullCalls` after the family capability query. -/
def callsAfterFamilyQuery (e : Env) : List Event :=
  [Event.TPM2_GetCapability TPM_CAP_TPM_PROPERTIES TPM_PT_PCR_COUNT 1
     e.TPM2_GetCapability_pcrCount.1 e.TPM2_GetCapability_pcrCount.2,
   Event.TPM2_GetRandom RAND_GET_SZ e.TPM2_GetRandom.1 e.TPM2_GetRandom.2] ++
  (pcrCalls e ++ (sessionCalls e ++ finalCalls e))

/-- The calls after Startup in a run in which every check passes. -/
def callsAfterStartup (e : Env) : List Event :=
  capCalls e ++ (pcrCalls e ++ (sessionCalls e ++ finalCalls e))

/-- The calls of lines 190-288 before GetRandom. -/
def callsBeforeRandom (e : Env) : List Event :=
  startCalls e ++
  [Event.TPM2_SelfTest YES e.TPM2_SelfTest, Event.TPM2_GetTestResult e.TPM2_GetTestResult,
   Event.TPM2_IncrementalSelfTest 1 TPM_ALG_RSA e.TPM2_IncrementalSelfTest,
   Event.TPM2_GetCapability TPM_CAP_TPM_PROPERTIES TPM_PT_FAMILY_INDICATOR 1
     e.TPM2_GetCapability_family.1 e.TPM2_GetCapability_family.2,
   Event.TPM2_GetCapability TPM_CAP_TPM_PROPERTIES TPM_PT_PCR_COUNT 1
     e.TPM2_GetCapability_pcrCount.1 e.TPM2_GetCapability_pcrCount.2]

@[simp] theorem Run.after_trace (evs : List Event) (r : Run) :
    (Run.after evs r).trace = evs ++ r.trace := by
  induction evs with
  | nil => rfl
  | cons ev evs ih => simp [Run.after, Run.trace, ih]

@[simp] theorem Run.after_ret (evs : List Event) (r : Run) :
    (Run.after evs r).ret = r.ret := by
  induction evs with
  | nil => rfl
  | cons ev evs ih => simp [Run.after, Run.ret, ih]

@[simp] theorem Run.returns_trace (rc : Int) : (Run.returns rc).trace = [] := rfl

@[simp] theorem Run.returns_ret (rc : Int) : (Run.returns rc).ret = rc := rfl

@[simp] theorem exit_ret (e : Env) (rc : Int) : (exit_ e rc).ret = rc := by
  simp [exit_]

@[simp] theorem exit_trace (e : Env) (rc : Int) : (exit_ e rc).trace = exitCalls e := by
  simp [exit_, exitCalls]

theorem exitCalls_cases (e : Env) : ∀ ev ∈ exitCalls e,
    ev = Event.wc_FreeRng ∨ ev = Event.wolfCrypt_Cleanup ∨ ∃ fd, ev = Event.close fd := by
  intro ev hev
  unfold exitCalls at hev
  cases h : e.gSpiDev with
  | none => simp [h] at hev; rcases hev with rfl | rfl <;> simp
  | some fd =>
    simp [h] at hev
    rcases hev with rfl | rfl | ⟨_, rfl⟩ <;> simp

theorem exitCalls_not_device (e : Env) : ∀ ev ∈ exitCalls e, ev.isDeviceCmd = false := by
  intro ev hev
  rcases exitCalls_cases e ev hev with rfl | rfl | ⟨fd, rfl⟩ <;> rfl

theorem toInt32_of_lt (n : Nat) (h : n < 2 ^ 31) : toInt32 n = (n : Int) := by
  unfold toInt32
  have h1 : n % 2 ^ 32 = n := Nat.mod_eq_of_lt (by omega)
  rw [h1, if_pos h]

theorem loopReads_succ_left (e : Env) (i : Int) (k : Nat) :
    loopReads e i (k + 1) =
      Event.TPM2_PCR_Read (TPM2_SetupPCRSel TPM_ALG_SHA256 i) (e.TPM2_PCR_Read_loop i) ::
        loopReads e (i + 1) k := by
  unfold loopReads
  rw [List.range_succ_eq_map]
  simp only [List.map_cons, List.map_map, Nat.cast_zero, add_zero]
  congr 1
  apply List.map_congr_left
  intro j _
  simp only [Function.comp, Nat.cast_succ]
  have : i + ((j : Int) + 1) = i + 1 + j := by ring
  rw [this]

/-- Enough fuel: any bound of at least `(pcrCount - i).toNat` iterations gives the same loop. -/
theorem pcrReadLoop_fuel (e : Env) (c : Int) : ∀ (fuel : Nat) (i : Int),
    (c - i).toNat ≤ fuel → pcrReadLoop e c fuel i = pcrReadLoop e c (c - i).toNat i := by
  intro fuel
  induction fuel with
  | zero =>
    intro i h
    have : (c - i).toNat = 0 := by omega
    rw [this]
  | succ n ih =>
    intro i h
    by_cases hlt : i < c
    · obtain ⟨m, hm⟩ : ∃ m, (c - i).toNat = m + 1 := ⟨(c - i).toNat - 1, by omega⟩
      have hm2 : (c - (i + 1)).toNat = m := by omega
      rw [hm]
      simp only [pcrReadLoop, hlt, if_true]
      rw [ih (i + 1) (by omega), hm2]
    · have h0 : (c - i).toNat = 0 := by omega
      rw [h0]
      simp only [pcrReadLoop, hlt, if_false]

/-- When every read succeeds the loop issues the reads of `i`, ..., `pcrCount - 1`. -/
theorem pcrReadLoop_all_ok (e : Env) (c : Int) : ∀ (fuel : Nat) (i : Int),
    fuel = (c - i).toNat →
    (∀ j : Nat, j < fuel → e.TPM2_PCR_Read_loop (i + j) = TPM_RC_SUCCESS) →
    pcrReadLoop e c fuel i = (loopReads e i fuel, none) := by
  intro fuel
  induction fuel with
  | zero => intro i _ _; rfl
  | succ n ih =>
    intro i hf hok
    have hlt : i < c := by omega
    have h0 : e.TPM2_PCR_Read_loop i = TPM_RC_SUCCESS := by simpa using hok 0 (by omega)
    have ih2 := ih (i + 1) (by omega) (by
      intro j hj
      have := hok (j + 1) (by omega)
      rw [← this]; congr 1; push_cast; ring)
    simp only [pcrReadLoop, hlt, if_true, h0, ne_eq, not_true_eq_false, if_false, ih2]
    rw [loopReads_succ_left, h0]

/-- When the read of counter `i + k` is the first to fail, the loop issues the reads up to it
and leaves with its status. -/
theorem pcrReadLoop_fail_at (e : Env) (c : Int) : ∀ (k fuel : Nat) (i : Int),
    k < (c - i).toNat → (c - i).toNat ≤ fuel →
    (∀ j : Nat, j < k → e.TPM2_PCR_Read_loop (i + j) = TPM_RC_SUCCESS) →
    e.TPM2_PCR_Read_loop (i + k) ≠ TPM_RC_SUCCESS →
    pcrReadLoop e c fuel i = (loopReads e i (k + 1), some (e.TPM2_PCR_Read_loop (i + k))) := by
  intro k
  induction k with
  | zero =>
    intro fuel i hk hf _ hbad
    obtain ⟨n, rfl⟩ : ∃ n, fuel = n + 1 := ⟨fuel - 1, by omega⟩
    have hlt : i < c := by omega
    simp only [Nat.cast_zero, add_zero] at hbad
    simp only [pcrReadLoop, hlt, if_true, ne_eq, hbad, not_false_eq_true, Nat.cast_zero, add_zero]
    rw [loopReads_succ_left]
    rfl
  | succ k ih =>
    intro fuel i hk hf hok hbad
    obtain ⟨n, rfl⟩ : ∃ n, fuel = n + 1 := ⟨fuel - 1, by omega⟩
    have hlt : i < c := by omega
    have h0 : e.TPM2_PCR_Read_loop i = TPM_RC_SUCCESS := by simpa using hok 0 (by omega)
    have e1 : ∀ j : Nat, i + 1 + (j : Int) = i + ((j + 1 : Nat) : Int) := by
      intro j; push_cast; ring
    have ih2 := ih n (i + 1) (by omega) (by omega) (by
      intro j hj
      rw [e1]; exact hok (j + 1) (by omega)) (by rw [e1]; exact hbad)
    simp only [pcrReadLoop, hlt, if_true, h0, ne_eq, not_true_eq_false, if_false, ih2]
    rw [loopReads_succ_left e i (k + 1), h0, e1]

@[simp] theorem TraceAll_nil (P : Event → Prop) : TraceAll P [] := by
  intro ev h; cases h

@[simp] theorem TraceAll_cons (P : Event → Prop) (x : Event) (l : List Event) :
    TraceAll P (x :: l) ↔ P x ∧ TraceAll P l := by
  simp [TraceAll]

@[simp] theorem TraceAll_append (P : Event → Prop) (a b : List Event) :
    TraceAll P (a ++ b) ↔ TraceAll P a ∧ TraceAll P b := by
  simp [TraceAll, or_imp, forall_and]

theorem TraceAll.imp {P Q : Event → Prop} {l : List Event} (h : TraceAll P l)
    (hPQ : ∀ ev, P ev → Q ev) : TraceAll Q l :=
  fun ev hev => hPQ ev (h ev hev)

theorem Run.after_after (a b : List Event) (r : Run) :
    Run.after a (Run.after b r) = Run.after (a ++ b) r := by
  induction a with
  | nil => rfl
  | cons x a ih => simp [Run.after, ih]

theorem Run.call_eq_after (ev : Event) (r : Run) : Run.call ev r = Run.after [ev] r := rfl

theorem ChecksThrough.nil (e : Env) (next : Run) : ChecksThrough e [] next next :=
  Or.inr ⟨TraceAll_nil _, rfl⟩

theorem ChecksThrough.call {e : Env} {body : List Event} {next r : Run} (ev : Event)
    (hev : ev.checkPassed = true) (h : ChecksThrough e body next r) :
    ChecksThrough e (ev :: body) next (Run.call ev r) := by
  rcases h with ⟨passed, last, rest, hb, hp, hl, hr⟩ | ⟨hp, hr⟩
  · exact Or.inl ⟨ev :: passed, last, rest, by rw [hb]; rfl, by simp [hev, hp], hl,
      by rw [hr]; rfl⟩
  · exact Or.inr ⟨by simp [hev, hp], by rw [hr]; rfl⟩

theorem ChecksThrough.check {e : Env} {body : List Event} {next r : Run} (ev : Event)
    (rc : Int) (c : Prop) [Decidable c] (hrc : ev.status = rc)
    (hc : c ↔ ev.checkPassed = false) (h : ChecksThrough e body next r) :
    ChecksThrough e (ev :: body) next (Run.call ev (if c then exit_ e rc else r)) := by
  by_cases hcc : c
  · rw [if_pos hcc]
    exact Or.inl ⟨[], ev, body, rfl, TraceAll_nil _, hc.1 hcc, by rw [hrc]; rfl⟩
  · rw [if_neg hcc]
    have hev : ev.checkPassed = true := by
      cases hb : ev.checkPassed with
      | true => rfl
      | false => exact absurd (hc.2 hb) hcc
    exact ChecksThrough.call ev hev h

theorem ChecksThrough.append {e : Env} {b1 b2 : List Event} {n1 n2 r : Run}
    (h1 : ChecksThrough e b1 n1 r) (h2 : ChecksThrough e b2 n2 n1) :
    ChecksThrough e (b1 ++ b2) n2 r := by
  rcases h1 with ⟨passed, last, rest, hb, hp, hl, hr⟩ | ⟨hp, hr⟩
  · exact Or.inl ⟨passed, last, rest ++ b2, by rw [hb]; simp, hp, hl, hr⟩
  · rcases h2 with ⟨passed, last, rest, hb, hp2, hl, hr2⟩ | ⟨hp2, hr2⟩
    · refine Or.inl ⟨b1 ++ passed, last, rest, by rw [hb]; simp, by simp [hp, hp2], hl, ?_⟩
      rw [hr, hr2, Run.after_after]; simp
    · exact Or.inr ⟨by simp [hp, hp2], by rw [hr, hr2, Run.after_after]⟩

/-- When every check of the body passes the run makes all its calls and goes on. -/
theorem ChecksThrough.of_passed {e : Env} {body : List Event} {next r : Run}
    (h : ChecksThrough e body next r) (hp : TraceAll (fun ev => ev.checkPassed = true) body) :
    r = Run.after body next := by
  rcases h with ⟨passed, last, rest, hb, _, hl, _⟩ | ⟨_, hr⟩
  · have h1 : last.checkPassed = true := hp last (by rw [hb]; simp)
    rw [hl] at h1
    cases h1
  · exact hr

theorem ChecksThrough.check2 {e : Env} {body : List Event} {next r : Run} (ev : Event)
    (rc : Int) (c1 c2 : Prop) [Decidable c1] [Decidable c2] (hrc : ev.status = rc)
    (hc : (c1 ∨ c2) ↔ ev.checkPassed = false) (h : ChecksThrough e body next r) :
    ChecksThrough e (ev :: body) next
      (Run.call ev (if c1 then exit_ e rc else if c2 then exit_ e rc else r)) := by
  have heq : (if c1 then exit_ e rc else if c2 then exit_ e rc else r) =
      (if c1 ∨ c2 then exit_ e rc else r) := by
    by_cases h1 : c1
    · simp [h1]
    · by_cases h2 : c2 <;> simp [h1, h2]
  rw [heq]
  exact ChecksThrough.check ev rc (c1 ∨ c2) hrc hc h

theorem loopReads_add (e : Env) : ∀ (a b : Nat) (i : Int),
    loopReads e i (a + b) = loopReads e i a ++ loopReads e (i + a) b := by
  intro a
  induction a with
  | zero => intro b i; simp [loopReads]
  | succ a ih =>
    intro b i
    have h1 : a + 1 + b = (a + b) + 1 := by omega
    rw [h1, loopReads_succ_left, loopReads_succ_left, ih b (i + 1)]
    have h2 : i + 1 + (a : Int) = i + ((a + 1 : Nat) : Int) := by push_cast; ring
    rw [h2]
    rfl

theorem loopReads_succ_right (e : Env) (i : Int) (k : Nat) :
    loopReads e i (k + 1) = loopReads e i k ++
      [Event.TPM2_PCR_Read (TPM2_SetupPCRSel TPM_ALG_SHA256 (i + k)) (e.TPM2_PCR_Read_loop (i + k))] := by
  rw [loopReads_add e k 1 i, loopReads_succ_left]
  rfl

theorem loopReads_checkPassed (e : Env) (i : Int) (k : Nat)
    (h : ∀ j : Nat, j < k → e.TPM2_PCR_Read_loop (i + j) = TPM_RC_SUCCESS) :
    TraceAll (fun ev => ev.checkPassed = true) (loopReads e i k) := by
  intro ev hev
  unfold loopReads at hev
  obtain ⟨j, hj, rfl⟩ := List.mem_map.1 hev
  simp [Event.checkPassed, h j (List.mem_range.1 hj)]

/-- The loop of lines 292-306 followed by the rest of the function. -/
theorem ChecksThrough.loop {e : Env} {body : List Event} {next r : Run} (c : Int)
    (h : ChecksThrough e body next r) :
    ChecksThrough e (loopReads e 0 c.toNat ++ body) next
      (Run.after (pcrReadLoop e c c.toNat 0).1
        (match (pcrReadLoop e c c.toNat 0).2 with
         | some rc => exit_ e rc
         | none => r)) := by
  have hc0 : (c - 0).toNat = c.toNat := by simp
  by_cases hall : ∀ j : Nat, j < c.toNat → e.TPM2_PCR_Read_loop (0 + j) = TPM_RC_SUCCESS
  · rw [pcrReadLoop_all_ok e c c.toNat 0 hc0.symm hall]
    exact ChecksThrough.append (Or.inr ⟨loopReads_checkPassed e 0 c.toNat hall, rfl⟩) h
  · have hex : ∃ k : Nat, k < c.toNat ∧ e.TPM2_PCR_Read_loop (0 + k) ≠ TPM_RC_SUCCESS := by
      by_contra hne
      apply hall
      intro j hj
      by_contra hj2
      exact hne ⟨j, hj, hj2⟩
    classical
    have hk := Nat.find_spec hex
    have hmin : ∀ j : Nat, j < Nat.find hex → e.TPM2_PCR_Read_loop (0 + j) = TPM_RC_SUCCESS := by
      intro j hj
      by_contra hj2
      exact Nat.find_min hex hj ⟨lt_trans hj hk.1, hj2⟩
    generalize Nat.find hex = k at hk hmin
    rw [pcrReadLoop_fail_at e c k c.toNat 0 (by rw [hc0]; exact hk.1) (by rw [hc0]) hmin hk.2]
    obtain ⟨m, hm⟩ : ∃ m, c.toNat = k + (1 + m) := ⟨c.toNat - k - 1, by omega⟩
    refine Or.inl ⟨loopReads e 0 k,
      Event.TPM2_PCR_Read (TPM2_SetupPCRSel TPM_ALG_SHA256 (0 + k)) (e.TPM2_PCR_Read_loop (0 + k)),
      loopReads e (0 + k + 1) m ++ body, ?_, loopReads_checkPassed e 0 k hmin, ?_, ?_⟩
    · rw [hm, loopReads_add e k (1 + m) 0, Nat.add_comm 1 m, loopReads_succ_left]
      simp
    · have h2 := hk.2
      simp only [Event.checkPassed, decide_eq_false_iff_not]
      exact h2
    · simp only [Event.status]
      rw [loopReads_succ_right]

theorem createPrimaryAndShutdown_checks (e : Env) :
    ChecksThrough e (finalCalls e) (exit_ e e.TPM2_Shutdown) (createPrimaryAndShutdown e) := by
  unfold createPrimaryAndShutdown finalCalls
  simp only [Run.after]
  refine ChecksThrough.check _ _ _ rfl (by simp [Event.checkPassed]) ?_
  refine ChecksThrough.check _ _ _ rfl (by simp [Event.checkPassed]) ?_
  exact ChecksThrough.nil _ _

theorem policySession_checks (e : Env) :
    ChecksThrough e (sessionCalls e) (createPrimaryAndShutdown e) (policySession e) := by
  unfold policySession sessionCalls authSesCmd policyPCRCmd hashArray hashAnswer pcrArray
  simp only [Run.after]
  refine ChecksThrough.check _ _ _ rfl (by simp [Event.checkPassed]) ?_
  refine ChecksThrough.check _ _ _ rfl (by simp [Event.checkPassed]) ?_
  refine ChecksThrough.check _ _ _ rfl (by simp [Event.checkPassed]) ?_
  refine ChecksThrough.check _ _ _ rfl (by simp [Event.checkPassed]) ?_
  refine ChecksThrough.check _ _ _ rfl (by simp [Event.checkPassed]) ?_
  refine ChecksThrough.check _ _ _ rfl (by simp [Event.checkPassed]) ?_
  refine ChecksThrough.check _ _ _ rfl (by simp [Event.checkPassed]) ?_
  have h := ChecksThrough.nil e (createPrimaryAndShutdown e)
  exact h

theorem pcrReadAndExtend_checks (e : Env) :
    ChecksThrough e (pcrCalls e) (policySession e) (pcrReadAndExtend e (pcrCountOf e)) := by
  unfold pcrReadAndExtend pcrCalls extendCmd
  simp only [Run.after]
  apply ChecksThrough.loop
  refine ChecksThrough.check _ _ _ rfl (by simp [Event.checkPassed]) ?_
  refine ChecksThrough.check _ _ _ rfl (by simp [Event.checkPassed]) ?_
  exact ChecksThrough.nil _ _

theorem selfTestAndCapabilities_checks (e : Env) :
    ChecksThrough e (capCalls e) (pcrReadAndExtend e (pcrCountOf e))
      (selfTestAndCapabilities e) := by
  unfold selfTestAndCapabilities capCalls pcrCountOf
  simp only [Run.after]
  refine ChecksThrough.check _ _ _ rfl (by simp [Event.checkPassed]) ?_
  refine ChecksThrough.check _ _ _ rfl (by simp [Event.checkPassed]) ?_
  refine ChecksThrough.call _ rfl ?_
  refine ChecksThrough.check _ _ _ rfl (by simp [Event.checkPassed]) ?_
  refine ChecksThrough.check _ _ _ rfl (by simp [Event.checkPassed]) ?_
  refine ChecksThrough.check2 _ _ _ _ rfl ?_ ?_
  · simp only [Event.checkPassed, decide_eq_false_iff_not, ne_eq]
    tauto
  · exact ChecksThrough.nil _ _

/-- The first part of the function: either `wc_InitRng` fails and the function returns at
once (line 195), or the calls of lines 190-217 are checked one after the other. -/
theorem TPM2_Demo_checks (e : Env) :
    (e.wc_InitRng < 0 ∧
      TPM2_Demo e = Run.after [Event.wolfCrypt_Init, Event.wc_InitRng e.wc_InitRng]
        (Run.returns e.wc_InitRng)) ∨
    (0 ≤ e.wc_InitRng ∧
      ChecksThrough e (startCalls e) (selfTestAndCapabilities e) (TPM2_Demo e)) := by
  by_cases h0 : e.wc_InitRng < 0
  · left
    refine ⟨h0, ?_⟩
    unfold TPM2_Demo
    simp only [if_pos h0]
  · right
    refine ⟨not_lt.1 h0, ?_⟩
    unfold TPM2_Demo startCalls
    simp only [if_neg h0, Run.after]
    refine ChecksThrough.call _ rfl ?_
    refine ChecksThrough.call _ (by simpa [Event.checkPassed] using not_lt.1 h0) ?_
    refine ChecksThrough.check _ _ _ rfl (by simp [Event.checkPassed]) ?_
    refine ChecksThrough.call _ rfl ?_
    refine ChecksThrough.check _ _ _ rfl (by simp [Event.checkPassed]) ?_
    exact ChecksThrough.nil _ _

/-- The whole function: either `wc_InitRng` fails and the function returns at once, or the
calls of `fullCalls` are checked one after the other up to the `exit` label. -/
theorem TPM2_Demo_outcome (e : Env) :
    (e.wc_InitRng < 0 ∧
      TPM2_Demo e = Run.after [Event.wolfCrypt_Init, Event.wc_InitRng e.wc_InitRng]
        (Run.returns e.wc_InitRng)) ∨
    (0 ≤ e.wc_InitRng ∧
      ChecksThrough e (fullCalls e) (exit_ e e.TPM2_Shutdown) (TPM2_Demo e)) := by
  rcases TPM2_Demo_checks e with h | ⟨h0, h⟩
  · exact Or.inl h
  · exact Or.inr ⟨h0, h.append ((selfTestAndCapabilities_checks e).append
      ((pcrReadAndExtend_checks e).append ((policySession_checks e).append
        (createPrimaryAndShutdown_checks e))))⟩

/-! ## Consequences of the call-by-call description -/

theorem first_failure_split {passed A rest B : List Event} {last x : Event}
    (h : passed ++ last :: rest = A ++ x :: B) :
    (passed = A ∧ last = x ∧ rest = B) ∨ (∃ c, passed = A ++ x :: c) ∨
      (∃ a, A = passed ++ last :: a) := by
  rcases List.append_eq_append_iff.1 h with ⟨a, ha, hb⟩ | ⟨c, hc, hd⟩
  · cases a with
    | nil =>
      simp only [List.nil_append, List.cons.injEq] at hb
      simp only [List.append_nil] at ha
      exact Or.inl ⟨ha.symm, hb.1, hb.2⟩
    | cons y a =>
      simp only [List.cons_append, List.cons.injEq] at hb
      exact Or.inr (Or.inr ⟨a, by rw [ha, hb.1]⟩)
  · cases c with
    | nil =>
      simp only [List.nil_append, List.cons.injEq] at hd
      simp only [List.append_nil] at hc
      exact Or.inl ⟨hc, hd.1.symm, hd.2.symm⟩
    | cons y c =>
      simp only [List.cons_append, List.cons.injEq] at hd
      exact Or.inr (Or.inl ⟨c, by rw [hc, hd.1]⟩)

/-- The calls of a run are calls of its body, calls of the `exit` label or calls of the
continuation. -/
theorem ChecksThrough.mem_trace {e : Env} {body : List Event} {next r : Run}
    (h : ChecksThrough e body next r) {x : Event} (hx : x ∈ r.trace) :
    x ∈ body ∨ x ∈ exitCalls e ∨ x ∈ next.trace := by
  rcases h with ⟨passed, last, rest, hb, _, _, hr⟩ | ⟨_, hr⟩
  · rw [hr] at hx
    simp only [Run.after_trace, exit_trace, List.mem_append, List.mem_singleton] at hx
    rcases hx with (hx | hx) | hx
    · exact Or.inl (by rw [hb]; simp [hx])
    · exact Or.inl (by rw [hb]; simp [hx])
    · exact Or.inr (Or.inl hx)
  · rw [hr] at hx
    simp only [Run.after_trace, List.mem_append] at hx
    rcases hx with hx | hx
    · exact Or.inl hx
    · exact Or.inr (Or.inr hx)

/-- When the calls before `x` pass their checks, `x` is called; the calls after it are
calls of the rest of the body, of the `exit` label or of the continuation. -/
theorem ChecksThrough.progress {e : Env} {body A B : List Event} {x : Event} {next r : Run}
    (h : ChecksThrough e body next r) (hb : body = A ++ x :: B)
    (hA : TraceAll (fun ev => ev.checkPassed = true) A) :
    ∃ post, r.trace = A ++ x :: post ∧
      ∀ z ∈ post, z ∈ B ∨ z ∈ exitCalls e ∨ z ∈ next.trace := by
  rcases h with ⟨passed, last, rest, hb2, hp, hl, hr⟩ | ⟨_, hr⟩
  · rw [hb] at hb2
    rcases first_failure_split hb2.symm with ⟨h1, h2, _⟩ | ⟨c, hc⟩ | ⟨a, ha⟩
    · refine ⟨exitCalls e, by rw [hr, h1, h2]; simp, ?_⟩
      intro z hz
      exact Or.inr (Or.inl hz)
    · refine ⟨c ++ last :: exitCalls e, by rw [hr, hc]; simp, ?_⟩
      intro z hz
      have hB : B = c ++ last :: rest := by
        rw [hc] at hb2
        simp only [List.append_assoc, List.cons_append] at hb2
        have := List.append_cancel_left hb2
        simp only [List.cons.injEq, true_and] at this
        exact this
      simp only [List.mem_append, List.mem_cons] at hz
      rcases hz with hz | hz | hz
      · exact Or.inl (by rw [hB]; simp [hz])
      · exact Or.inl (by rw [hB]; simp [hz])
      · exact Or.inr (Or.inl hz)
    · have := hA last (by rw [ha]; simp)
      simp only [hl] at this
      cases this
  · refine ⟨B ++ next.trace, by rw [hr, hb]; simp, ?_⟩
    intro z hz
    simp only [List.mem_append] at hz
    rcases hz with hz | hz
    · exact Or.inl hz
    · exact Or.inr (Or.inr hz)

/-- A call that is neither among the first calls `A` of the body nor a call of the `exit`
label can only be made when the calls of `A` pass their checks. -/
theorem ChecksThrough.passed_of_mem {e : Env} {body A B : List Event} {X : Event}
    {next r : Run} (h : ChecksThrough e body next r) (hb : body = A ++ B)
    (hX : X ∈ r.trace) (hXA : X ∉ A) (hXe : X ∉ exitCalls e) :
    TraceAll (fun ev => ev.checkPassed = true) A := by
  rcases h with ⟨passed, last, rest, hb2, hp, hl, hr⟩ | ⟨hp, _⟩
  · rw [hb] at hb2
    rcases List.append_eq_append_iff.1 hb2 with ⟨c, hc, _⟩ | ⟨a, ha, hd⟩
    · rw [hc] at hp
      exact ((TraceAll_append _ _ _).1 hp).1
    · cases a with
      | nil =>
        simp only [List.append_nil] at ha
        rw [ha]; exact hp
      | cons y a =>
        exfalso
        simp only [List.cons_append, List.cons.injEq] at hd
        rw [hr] at hX
        simp only [Run.after_trace, exit_trace, List.mem_append, List.mem_singleton] at hX
        rcases hX with (hX | hX) | hX
        · exact hXA (by rw [ha]; simp [hX])
        · exact hXA (by rw [ha, ← hd.1]; simp [hX])
        · exact hXe hX
  · rw [hb] at hp
    exact ((TraceAll_append _ _ _).1 hp).1

/-- When the calls before `x` pass their checks and `x` fails its check, the run makes
these calls and leaves through the `exit` label with the status of `x`. -/
theorem ChecksThrough.stops_at {e : Env} {body A B : List Event} {x : Event} {next r : Run}
    (h : ChecksThrough e body next r) (hb : body = A ++ x :: B)
    (hA : TraceAll (fun ev => ev.checkPassed = true) A) (hx : x.checkPassed = false) :
    r = Run.after (A ++ [x]) (exit_ e x.status) := by
  rcases h with ⟨passed, last, rest, hb2, hp, hl, hr⟩ | ⟨hp, _⟩
  · rw [hb] at hb2
    rcases first_failure_split hb2.symm with ⟨h1, h2, _⟩ | ⟨c, hc⟩ | ⟨a, ha⟩
    · rw [hr, h1, h2]
    · have := hp x (by rw [hc]; simp)
      simp only [hx] at this
      cases this
    · have := hA last (by rw [ha]; simp)
      simp only [hl] at this
      cases this
  · have := hp x (by rw [hb]; simp)
    simp only [hx] at this
    cases this

theorem checkPassed_not_cmdFailed (ev : Event) (h : ev.checkPassed = true)
    (hi : ev.isIncrementalSelfTest = false) : ev.cmdFailed = false := by
  cases ev <;>
    simp_all [Event.checkPassed, Event.cmdFailed, Event.isDeviceCmd, Event.status,
      Event.isStartup, Event.isIncrementalSelfTest]
  tauto

/-- A call whose check fails returned a status other than success, unless it is a GetRandom
that returned success with a byte count other than the requested one. -/
theorem status_of_not_checkPassed (ev : Event) (h : ev.checkPassed = false) :
    ev.status ≠ TPM_RC_SUCCESS ∨
      ∃ n out, ev = Event.TPM2_GetRandom n TPM_RC_SUCCESS out ∧ out ≠ n := by
  cases ev <;> simp_all [Event.checkPassed, Event.status, TPM_RC_SUCCESS]
  all_goals first | omega | tauto

theorem TraceAll_iff_all (p : Event → Bool) (l : List Event) :
    TraceAll (fun ev => p ev = true) l ↔ l.all p = true := by
  simp [TraceAll]

/-! ## The claims -/

/-- C9 (code defect): when `wc_InitRng` fails, `TPM2_Demo` returns at line 195 right after
`wolfCrypt_Init` and `wc_InitRng`: the run has these two calls only, so `wolfCrypt_Cleanup`
is never executed although `wolfCrypt_Init` was. -/
theorem C9_cleanup_skipped_when_InitRng_fails :
    (TPM2_Demo rngInitFailEnv).trace.length = 2 ∧
    (TPM2_Demo rngInitFailEnv).trace.countP Event.isCleanup = 0 ∧
    (TPM2_Demo rngInitFailEnv).ret = -199 := by
  decide

/-- C4 (code defect): with a device that opens the session `0x03000000` and then fails
PolicyGetDigest, the run ends with the status of PolicyGetDigest and without any
FlushContext for the session handle. -/
theorem C4_session_not_flushed_on_failure :
    (TPM2_Demo digestFailEnv).trace.any (Event.isSessionStarted 0x03000000) = true ∧
    (TPM2_Demo digestFailEnv).trace.countP (Event.isFlushOf 0x03000000) = 0 ∧
    (TPM2_Demo digestFailEnv).trace.countP Event.isFlushContext = 0 ∧
    (TPM2_Demo digestFailEnv).ret = TPM_RC_FAILURE := by
  decide

theorem exitCalls_stage (e : Env) : TraceAll (fun ev => ev.stage = 4) (exitCalls e) := by
  intro ev hev
  rcases exitCalls_cases e ev hev with rfl | rfl | ⟨fd, rfl⟩ <;> rfl

theorem loopReads_stage (e : Env) (i : Int) (k : Nat) :
    TraceAll (fun ev => ev.stage = 1) (loopReads e i k) := by
  intro ev hev
  unfold loopReads at hev
  obtain ⟨j, _, rfl⟩ := List.mem_map.1 hev
  rfl

/-- Every call of a run is one of the calls of `fullCalls` or a call of the `exit` label. -/
theorem TPM2_Demo_mem_trace (e : Env) {x : Event} (h : x ∈ (TPM2_Demo e).trace) :
    x ∈ fullCalls e ∨ x ∈ exitCalls e := by
  rcases TPM2_Demo_outcome e with ⟨_, hr⟩ | ⟨_, hch⟩
  · rw [hr] at h
    simp only [Run.after_trace, Run.returns_trace, List.append_nil] at h
    left
    unfold fullCalls startCalls
    simp only [List.mem_cons, List.mem_singleton, List.not_mem_nil, or_false] at h
    rcases h with rfl | rfl <;> simp
  · rcases hch.mem_trace h with h1 | h1 | h1
    · exact Or.inl h1
    · exact Or.inr h1
    · rw [exit_trace] at h1
      exact Or.inr h1

/-- A CreatePrimary call of a run carries the command of lines 412-429. -/
theorem createPrimary_mem_trace (e : Env) (c : CreatePrimary_In) (rc : Int) (o : Nat)
    (h : Event.TPM2_CreatePrimary c rc o ∈ (TPM2_Demo e).trace) : c = createPrimaryCmd := by
  rcases TPM2_Demo_mem_trace e h with h1 | h1
  · simp only [fullCalls, startCalls, capCalls, pcrCalls, sessionCalls, finalCalls,
      List.mem_append, List.mem_cons, List.mem_singleton, List.not_mem_nil, or_false,
      Event.TPM2_CreatePrimary.injEq, false_or, reduceCtorEq] at h1
    rcases h1 with h1 | h1
    · have := loopReads_stage e 0 _ _ h1
      simp [Event.stage] at this
    · exact h1.1
  · have := exitCalls_stage e _ h1
    simp [Event.stage] at this

theorem createPrimaryCmd_unassigned (f : CreatePrimaryField) (h : f.assigned = false) :
    createPrimaryCmd f = 0 := by
  cases f with
  | other m i => rfl
  | authPolicy_buffer i =>
    have hi : ¬ i < 32 := by
      simpa [CreatePrimaryField.assigned, TPM_20_EK_AUTH_POLICY] using h
    simp [createPrimaryCmd, assign, XMEMCPY_authPolicy, XMEMSET_zero, TPM_20_EK_AUTH_POLICY, hi]
  | _ => simp [CreatePrimaryField.assigned] at h

/-- C5: the CreatePrimary command does not depend on the run.  Whatever the device, the random
source and the hash answered in two runs that reach CreatePrimary, both carry the same
command, and in it the primary handle is the endorsement hierarchy, `authPolicy` has size 32
and holds the 32 bytes of `TPM_20_EK_AUTH_POLICY` (so it is fixed, not taken from the digest
returned by PolicyGetDigest or from the hash given to PolicyPCR), the object attributes
contain `adminWithPolicy`, and every member that lines 413-429 do not assign is zero. -/
theorem C5_createPrimary_command_fixed (e1 e2 : Env) (c1 c2 : CreatePrimary_In)
    (rc1 rc2 : Int) (o1 o2 : Nat)
    (h1 : Event.TPM2_CreatePrimary c1 rc1 o1 ∈ (TPM2_Demo e1).trace)
    (h2 : Event.TPM2_CreatePrimary c2 rc2 o2 ∈ (TPM2_Demo e2).trace) :
    c1 = c2 ∧
    c1 .primaryHandle = TPM_RH_ENDORSEMENT ∧
    c1 .authPolicy_size = 32 ∧
    TPM_20_EK_AUTH_POLICY.length = 32 ∧
    (∀ i, i < 32 → c1 (.authPolicy_buffer i) = TPM_20_EK_AUTH_POLICY.getD i 0) ∧
    c1 .objectAttributes &&& TPMA_OBJECT_adminWithPolicy = TPMA_OBJECT_adminWithPolicy ∧
    (∀ f : CreatePrimaryField, f.assigned = false → c1 f = 0) := by
  have e1c := createPrimary_mem_trace e1 c1 rc1 o1 h1
  have e2c := createPrimary_mem_trace e2 c2 rc2 o2 h2
  subst e1c
  subst e2c
  refine ⟨rfl, by decide, by decide, by decide, ?_, by decide, createPrimaryCmd_unassigned⟩
  intro i hi
  simp [createPrimaryCmd, assign, XMEMCPY_authPolicy, TPM_20_EK_AUTH_POLICY, hi]

theorem not_mem_exitCalls (e : Env) {x : Event} (h : x.stage ≠ 4) : x ∉ exitCalls e :=
  fun hx => h (exitCalls_stage e x hx)

theorem not_mem_loopReads (e : Env) (i : Int) (k : Nat) {x : Event} (h : x.stage ≠ 1) :
    x ∉ loopReads e i k :=
  fun hx => h (loopReads_stage e i k x hx)

theorem exitCalls_not_cmdFailed (e : Env) : ∀ ev ∈ exitCalls e, ev.cmdFailed = false := by
  intro ev hev
  rcases exitCalls_cases e ev hev with rfl | rfl | ⟨fd, rfl⟩ <;> rfl

theorem unique_split {T pre post A R : List Event} {x y : Event}
    (h1 : T = pre ++ x :: post) (h2 : T = A ++ y :: R) (hA : x ∉ A) (hR : x ∉ R) :
    pre = A ∧ x = y ∧ post = R := by
  rw [h1] at h2
  rcases first_failure_split h2 with h | ⟨c, hc⟩ | ⟨a, ha⟩
  · exact h
  · exfalso
    rw [hc] at h2
    simp only [List.append_assoc, List.cons_append] at h2
    have h3 := List.append_cancel_left h2
    simp only [List.cons.injEq, true_and] at h3
    exact hR (by rw [← h3]; simp)
  · exfalso
    exact hA (by rw [ha]; simp)

/-- The calls of a run in which every check passes, and the value it returns. -/
theorem TPM2_Demo_of_all_passed (e : Env)
    (h : TraceAll (fun ev => ev.checkPassed = true) (fullCalls e)) :
    TPM2_Demo e = Run.after (fullCalls e) (exit_ e e.TPM2_Shutdown) ∧
      e.TPM2_Shutdown = TPM_RC_SUCCESS := by
  have hs : e.TPM2_Shutdown = TPM_RC_SUCCESS := by
    have := h (Event.TPM2_Shutdown TPM_SU_CLEAR e.TPM2_Shutdown)
      (by simp [fullCalls, finalCalls])
    simpa [Event.checkPassed] using this
  have h0 : 0 ≤ e.wc_InitRng := by
    have := h (Event.wc_InitRng e.wc_InitRng) (by simp [fullCalls, startCalls])
    simpa [Event.checkPassed] using this
  rcases TPM2_Demo_outcome e with ⟨hlt, _⟩ | ⟨_, hch⟩
  · omega
  · exact ⟨hch.of_passed h, hs⟩

theorem fullCalls_eq_snoc (e : Env) :
    fullCalls e = callsBeforeShutdown e ++ [Event.TPM2_Shutdown TPM_SU_CLEAR e.TPM2_Shutdown] := by
  simp [fullCalls, callsBeforeShutdown, finalCalls]

theorem shutdown_not_mem_before (e : Env) (t : Nat) (rc : Int) :
    Event.TPM2_Shutdown t rc ∉ callsBeforeShutdown e := by
  simp only [callsBeforeShutdown, startCalls, capCalls, pcrCalls, sessionCalls,
    List.mem_append, List.mem_cons, List.mem_singleton, List.not_mem_nil, or_false,
    false_or, reduceCtorEq, not_or]
  exact not_mem_loopReads e _ _ (by simp [Event.stage])

/-- A Shutdown that returns success is only reached when every check passes. -/
theorem all_passed_of_shutdown (e : Env) (t : Nat)
    (h : Event.TPM2_Shutdown t TPM_RC_SUCCESS ∈ (TPM2_Demo e).trace) :
    TraceAll (fun ev => ev.checkPassed = true) (fullCalls e) := by
  have hX : Event.TPM2_Shutdown t TPM_RC_SUCCESS ∉ exitCalls e :=
    not_mem_exitCalls e (by simp [Event.stage])
  have hmem := TPM2_Demo_mem_trace e h
  have hrc : e.TPM2_Shutdown = TPM_RC_SUCCESS := by
    rcases hmem with h1 | h1
    · rw [fullCalls_eq_snoc, List.mem_append] at h1
      rcases h1 with h1 | h1
      · exact absurd h1 (shutdown_not_mem_before e _ _)
      · simp only [List.mem_singleton, Event.TPM2_Shutdown.injEq] at h1
        exact h1.2.symm
    · exact absurd h1 hX
  rcases TPM2_Demo_outcome e with ⟨_, hr⟩ | ⟨_, hch⟩
  · rw [hr] at h
    simp at h
  · have hA := hch.passed_of_mem (fullCalls_eq_snoc e) h (shutdown_not_mem_before e _ _) hX
    rw [fullCalls_eq_snoc, TraceAll_append]
    refine ⟨hA, ?_⟩
    simp [Event.checkPassed, hrc]

/-- C1 (amended): for every run in which GetRandom does not return success together with a
byte count other than the requested one, `TPM2_Demo` returns 0 if and only if Shutdown was
issued and returned success and every device command other than IncrementalSelfTest returned
success (the already-started status counting as success for Startup); the status of
IncrementalSelfTest is not part of the condition.  A run that returns 0 has made every call
of the pipeline. -/
theorem C1_zero_iff_pipeline_succeeded (e : Env)
    (hrand : ∀ n out, Event.TPM2_GetRandom n TPM_RC_SUCCESS out ∈ (TPM2_Demo e).trace →
      out = n) :
    ((TPM2_Demo e).ret = 0 ↔
      ((∃ t, Event.TPM2_Shutdown t TPM_RC_SUCCESS ∈ (TPM2_Demo e).trace) ∧
        ∀ ev ∈ (TPM2_Demo e).trace, ev.isIncrementalSelfTest = false → ev.cmdFailed = false)) ∧
    ((TPM2_Demo e).ret = 0 → (TPM2_Demo e).trace = fullCalls e ++ exitCalls e) := by
  have hfull : TraceAll (fun ev => ev.checkPassed = true) (fullCalls e) →
      (TPM2_Demo e).ret = 0 ∧ (TPM2_Demo e).trace = fullCalls e ++ exitCalls e := by
    intro hp
    obtain ⟨hr, hs⟩ := TPM2_Demo_of_all_passed e hp
    rw [hr]
    simp [hs, TPM_RC_SUCCESS]
  have hzero : (TPM2_Demo e).ret = 0 →
      TraceAll (fun ev => ev.checkPassed = true) (fullCalls e) := by
    intro h0
    rcases TPM2_Demo_outcome e with ⟨hlt, hr⟩ | ⟨_, hch⟩
    · rw [hr] at h0
      simp only [Run.after_ret, Run.returns_ret] at h0
      omega
    · rcases hch with ⟨passed, last, rest, _, _, hl, hr⟩ | ⟨hp, _⟩
      · exfalso
        rcases status_of_not_checkPassed last hl with hs | ⟨n, out, hlast, hne⟩
        · rw [hr] at h0
          simp only [Run.after_ret, exit_ret] at h0
          exact hs h0
        · apply hne
          apply hrand n out
          rw [hr, hlast]
          simp
      · exact hp
  refine ⟨⟨fun h0 => ?_, fun hR => ?_⟩, fun h0 => (hfull (hzero h0)).2⟩
  · have hp := hzero h0
    have htr := (hfull hp).2
    have hs := (TPM2_Demo_of_all_passed e hp).2
    refine ⟨⟨TPM_SU_CLEAR, ?_⟩, ?_⟩
    · rw [htr, fullCalls_eq_snoc, hs]
      simp
    · intro ev hev hi
      rw [htr, List.mem_append] at hev
      rcases hev with hev | hev
      · exact checkPassed_not_cmdFailed ev (hp ev hev) hi
      · exact exitCalls_not_cmdFailed e ev hev
  · obtain ⟨⟨t, ht⟩, _⟩ := hR
    exact (hfull (all_passed_of_shutdown e t ht)).1

theorem okEnv_all_passed : TraceAll (fun ev => ev.checkPassed = true) (fullCalls okEnv) := by
  rw [TraceAll_iff_all]
  decide

/-- Witness of C1 (amended): the sample device that answers every call with success. -/
theorem C1_witness :
    (∀ n out, Event.TPM2_GetRandom n TPM_RC_SUCCESS out ∈ (TPM2_Demo okEnv).trace → out = n) ∧
    (((TPM2_Demo okEnv).ret = 0 ↔
      ((∃ t, Event.TPM2_Shutdown t TPM_RC_SUCCESS ∈ (TPM2_Demo okEnv).trace) ∧
        ∀ ev ∈ (TPM2_Demo okEnv).trace,
          ev.isIncrementalSelfTest = false → ev.cmdFailed = false)) ∧
    ((TPM2_Demo okEnv).ret = 0 → (TPM2_Demo okEnv).trace = fullCalls okEnv ++ exitCalls okEnv)) :=
  have h : ∀ n out, Event.TPM2_GetRandom n TPM_RC_SUCCESS out ∈ (TPM2_Demo okEnv).trace →
      out = n := by
    intro n out hmem
    rw [(TPM2_Demo_of_all_passed okEnv okEnv_all_passed).1] at hmem
    simp only [Run.after_trace, exit_trace, List.mem_append] at hmem
    rcases hmem with hmem | hmem
    · have hp := okEnv_all_passed _ hmem
      simp only [Event.checkPassed, decide_eq_true_eq] at hp
      exact hp.2
    · exact absurd hmem (not_mem_exitCalls okEnv (by simp [Event.stage]))
  ⟨h, C1_zero_iff_pipeline_succeeded okEnv h⟩

/-- Counterexample to C1 as stated, at two inputs.  With GetRandom returning success and 16
bytes the
run returns 0 although it stops before Shutdown (and issues no register command at all);
with IncrementalSelfTest returning `TPM_RC_FAILURE` the run returns 0 although a command
failed. -/
theorem C1_counterexample :
    ((TPM2_Demo shortRandomEnv).ret = 0 ∧
      (TPM2_Demo shortRandomEnv).trace.any Event.isShutdown = false ∧
      (TPM2_Demo shortRandomEnv).trace.length = 14) ∧
    ((TPM2_Demo incFailEnv).ret = 0 ∧
      (TPM2_Demo incFailEnv).trace.any Event.cmdFailed = true) := by
  decide

/-- Witness of C5: two sample runs, one on a fresh device and one on a device already
started. -/
theorem C5_witness :
    Event.TPM2_CreatePrimary createPrimaryCmd 0 0x80000000 ∈ (TPM2_Demo okEnv).trace ∧
    Event.TPM2_CreatePrimary createPrimaryCmd 0 0x80000000 ∈
      (TPM2_Demo alreadyStartedEnv).trace ∧
    createPrimaryCmd .primaryHandle = TPM_RH_ENDORSEMENT ∧
    createPrimaryCmd .authPolicy_size = 32 ∧
    (∀ f : CreatePrimaryField, f.assigned = false → createPrimaryCmd f = 0) :=
  have h1 : Event.TPM2_CreatePrimary createPrimaryCmd 0 0x80000000 ∈ (TPM2_Demo okEnv).trace :=
    @List.getElem?_mem _ _ 44 _ rfl
  have h2 : Event.TPM2_CreatePrimary createPrimaryCmd 0 0x80000000 ∈
      (TPM2_Demo alreadyStartedEnv).trace :=
    @List.getElem?_mem _ _ 44 _ rfl
  have h := C5_createPrimary_command_fixed okEnv alreadyStartedEnv createPrimaryCmd
    createPrimaryCmd 0 0 0x80000000 0x80000000 h1 h2
  ⟨h1, h2, h.2.1, h.2.2.1, h.2.2.2.2.2.2⟩

theorem fullCalls_eq_around_incSelfTest (e : Env) :
    fullCalls e = callsBeforeIncSelfTest e ++
      Event.TPM2_IncrementalSelfTest 1 TPM_ALG_RSA e.TPM2_IncrementalSelfTest ::
      Event.TPM2_GetCapability TPM_CAP_TPM_PROPERTIES TPM_PT_FAMILY_INDICATOR 1
        e.TPM2_GetCapability_family.1 e.TPM2_GetCapability_family.2 ::
      callsAfterFamilyQuery e := by
  simp [fullCalls, callsBeforeIncSelfTest, callsAfterFamilyQuery, startCalls, capCalls]

theorem incSelfTest_not_mem_around (e : Env) {ev : Event}
    (h : ev.isIncrementalSelfTest = true) :
    ev ∉ callsBeforeIncSelfTest e ∧ ev ∉ callsAfterFamilyQuery e ∧ ev ∉ exitCalls e := by
  cases ev <;> simp only [Event.isIncrementalSelfTest, Bool.false_eq_true] at h
  refine ⟨?_, ?_, not_mem_exitCalls e (by simp [Event.stage])⟩
  · simp [callsBeforeIncSelfTest, startCalls]
  · simp only [callsAfterFamilyQuery, pcrCalls, sessionCalls, finalCalls,
      List.mem_append, List.mem_cons, List.mem_singleton, List.not_mem_nil, or_false,
      false_or, reduceCtorEq, not_or]
    exact not_mem_loopReads e _ _ (by simp [Event.stage])

/-- C2 (amended): when a device command returns a non-success status (other than the
already-started status of Startup), then, if the command is not IncrementalSelfTest, no
further device command is issued and `TPM2_Demo` returns exactly that status; if the command
is IncrementalSelfTest, its status is not checked and the next call is the capability
query for the family indicator. -/
theorem C2_first_error_aborts (e : Env) (pre post : List Event) (ev : Event)
    (htr : (TPM2_Demo e).trace = pre ++ ev :: post)
    (hdev : ev.isDeviceCmd = true) (hrc : ev.status ≠ TPM_RC_SUCCESS)
    (hst : ¬ (ev.isStartup = true ∧ ev.status = TPM_RC_INITIALIZE)) :
    (ev.isIncrementalSelfTest = false →
      (∀ x ∈ post, x.isDeviceCmd = false) ∧ (TPM2_Demo e).ret = ev.status) ∧
    (ev.isIncrementalSelfTest = true →
      ∃ rc2 out post2, post =
        Event.TPM2_GetCapability TPM_CAP_TPM_PROPERTIES TPM_PT_FAMILY_INDICATOR 1 rc2 out ::
          post2) := by
  have hfail : ev.cmdFailed = true := by
    cases hs : ev.isStartup with
    | false => simp [Event.cmdFailed, hdev, hs, hrc]
    | true =>
      have hne : ev.status ≠ TPM_RC_INITIALIZE := fun h => hst ⟨hs, h⟩
      simp [Event.cmdFailed, hdev, hs, hrc, hne]
  have hmem : ev ∈ (TPM2_Demo e).trace := by rw [htr]; simp
  have hne : ev ∉ exitCalls e := fun h => by
    have := exitCalls_not_device e ev h
    rw [hdev] at this
    cases this
  rcases TPM2_Demo_outcome e with ⟨_, hr⟩ | ⟨_, hch⟩
  · exfalso
    rw [hr] at hmem
    simp only [Run.after_trace, Run.returns_trace, List.append_nil, List.mem_cons,
      List.mem_singleton, List.not_mem_nil, or_false] at hmem
    rcases hmem with rfl | rfl <;> cases hdev
  · refine ⟨fun hi => ?_, fun hi => ?_⟩
    · rcases hch with ⟨passed, last, rest, _, hp, _, hr⟩ | ⟨hp, hr⟩
      · have hT : (TPM2_Demo e).trace = passed ++ last :: exitCalls e := by
          rw [hr]; simp
        have hnp : ev ∉ passed := fun h => by
          have := checkPassed_not_cmdFailed ev (hp ev h) hi
          rw [hfail] at this
          cases this
        obtain ⟨_, h2, h3⟩ := unique_split htr hT hnp hne
        refine ⟨?_, ?_⟩
        · rw [h3]
          exact exitCalls_not_device e
        · rw [hr, h2]
          simp
      · exfalso
        rw [hr] at hmem
        simp only [Run.after_trace, exit_trace, List.mem_append] at hmem
        rcases hmem with h | h
        · have := checkPassed_not_cmdFailed ev (hp ev h) hi
          rw [hfail] at this
          cases this
        · exact hne h
    · obtain ⟨hA, hB, _⟩ := incSelfTest_not_mem_around e hi
      have hgood := hch.passed_of_mem (fullCalls_eq_around_incSelfTest e) hmem hA hne
      have hgood2 : TraceAll (fun ev => ev.checkPassed = true)
          (callsBeforeIncSelfTest e ++
            [Event.TPM2_IncrementalSelfTest 1 TPM_ALG_RSA e.TPM2_IncrementalSelfTest]) := by
        rw [TraceAll_append]
        exact ⟨hgood, by simp [Event.checkPassed]⟩
      have hb2 : fullCalls e = (callsBeforeIncSelfTest e ++
            [Event.TPM2_IncrementalSelfTest 1 TPM_ALG_RSA e.TPM2_IncrementalSelfTest]) ++
          Event.TPM2_GetCapability TPM_CAP_TPM_PROPERTIES TPM_PT_FAMILY_INDICATOR 1
            e.TPM2_GetCapability_family.1 e.TPM2_GetCapability_family.2 ::
          callsAfterFamilyQuery e := by
        rw [fullCalls_eq_around_incSelfTest]; simp
      obtain ⟨post0, hT, hpost⟩ := hch.progress hb2 hgood2
      simp only [List.append_assoc, List.singleton_append] at hT
      have hR : ev ∉ Event.TPM2_GetCapability TPM_CAP_TPM_PROPERTIES TPM_PT_FAMILY_INDICATOR 1
          e.TPM2_GetCapability_family.1 e.TPM2_GetCapability_family.2 :: post0 := by
        intro h
        rcases List.mem_cons.1 h with h | h
        · rw [h] at hi
          cases hi
        · rcases hpost ev h with h | h | h
          · exact hB h
          · exact hne h
          · rw [exit_trace] at h
            exact hne h
      obtain ⟨_, _, h3⟩ := unique_split htr hT hA hR
      exact ⟨_, _, post0, h3⟩

/-- Counterexample to C2 as stated, for IncrementalSelfTest: at the sample device answering it with
`TPM_RC_FAILURE`, the eighth call of the run is this failed command, device commands are
issued after it, and the run returns 0, not the status of the failed command. -/
theorem C2_counterexample :
    (TPM2_Demo incFailEnv).trace[7]? =
      some (Event.TPM2_IncrementalSelfTest 1 TPM_ALG_RSA TPM_RC_FAILURE) ∧
    (Event.TPM2_IncrementalSelfTest 1 TPM_ALG_RSA TPM_RC_FAILURE).cmdFailed = true ∧
    ((TPM2_Demo incFailEnv).trace.drop 8).any Event.isDeviceCmd = true ∧
    (TPM2_Demo incFailEnv).ret = 0 ∧
    (TPM2_Demo incFailEnv).ret ≠ TPM_RC_FAILURE :=
  ⟨rfl, by decide, by decide, by decide, by decide⟩

/-- Witness of C2 (amended): at the sample device answering Startup with `TPM_RC_FAILURE` the
run stops
after Startup, makes only the calls of the `exit` label and returns `TPM_RC_FAILURE`. -/
theorem C2_witness :
    (TPM2_Demo startupFailEnv).trace =
      [Event.wolfCrypt_Init, Event.wc_InitRng 0, Event.TPM2_Init 0,
        Event.TPM2_SetSessionAuth TPM_RS_PW 32] ++
      Event.TPM2_Startup TPM_SU_CLEAR TPM_RC_FAILURE ::
      [Event.wc_FreeRng, Event.wolfCrypt_Cleanup, Event.close 3] ∧
    (∀ x ∈ [Event.wc_FreeRng, Event.wolfCrypt_Cleanup, Event.close 3],
      x.isDeviceCmd = false) ∧
    (TPM2_Demo startupFailEnv).ret = TPM_RC_FAILURE :=
  have htr : (TPM2_Demo startupFailEnv).trace =
      [Event.wolfCrypt_Init, Event.wc_InitRng 0, Event.TPM2_Init 0,
        Event.TPM2_SetSessionAuth TPM_RS_PW 32] ++
      Event.TPM2_Startup TPM_SU_CLEAR TPM_RC_FAILURE ::
      [Event.wc_FreeRng, Event.wolfCrypt_Cleanup, Event.close 3] := rfl
  have h := (C2_first_error_aborts startupFailEnv _ _ _ htr rfl (by decide) (by decide)).1 rfl
  ⟨htr, h.1, h.2⟩

theorem exit_startup (e : Env) (rc rc2 : Int) :
    exit_ { e with TPM2_Startup := rc } rc2 = exit_ e rc2 := rfl

theorem pcrReadLoop_startup (e : Env) (rc : Int) (c : Int) : ∀ (fuel : Nat) (i : Int),
    pcrReadLoop { e with TPM2_Startup := rc } c fuel i = pcrReadLoop e c fuel i := by
  intro fuel
  induction fuel with
  | zero => intro i; rfl
  | succ n ih => intro i; simp only [pcrReadLoop, ih]

theorem createPrimaryAndShutdown_startup (e : Env) (rc : Int) :
    createPrimaryAndShutdown { e with TPM2_Startup := rc } = createPrimaryAndShutdown e := by
  simp only [createPrimaryAndShutdown, exit_startup]

theorem policySession_startup (e : Env) (rc : Int) :
    policySession { e with TPM2_Startup := rc } = policySession e := by
  simp only [policySession, exit_startup, createPrimaryAndShutdown_startup]

theorem pcrReadAndExtend_startup (e : Env) (rc : Int) (c : Int) :
    pcrReadAndExtend { e with TPM2_Startup := rc } c = pcrReadAndExtend e c := by
  simp only [pcrReadAndExtend, exit_startup, policySession_startup, pcrReadLoop_startup]

/-- The part of the function after Startup does not read the status of Startup. -/
theorem selfTestAndCapabilities_startup (e : Env) (rc : Int) :
    selfTestAndCapabilities { e with TPM2_Startup := rc } = selfTestAndCapabilities e := by
  simp only [selfTestAndCapabilities, exit_startup, pcrReadAndExtend_startup]

theorem startCalls_passed (e : Env) (h0 : 0 ≤ e.wc_InitRng) (h1 : e.TPM2_Init = TPM_RC_SUCCESS)
    (h2 : e.TPM2_Startup = TPM_RC_SUCCESS ∨ e.TPM2_Startup = TPM_RC_INITIALIZE) :
    TraceAll (fun ev => ev.checkPassed = true) (startCalls e) := by
  simp only [startCalls, TraceAll_cons, TraceAll_nil, Event.checkPassed, decide_eq_true_eq,
    and_true, true_and]
  exact ⟨h0, h1, h2⟩

/-- When the calls before Startup pass their checks and Startup returns success or the
already-started status, the function goes on with the self test. -/
theorem TPM2_Demo_of_started (e : Env) (h0 : 0 ≤ e.wc_InitRng)
    (h1 : e.TPM2_Init = TPM_RC_SUCCESS)
    (h2 : e.TPM2_Startup = TPM_RC_SUCCESS ∨ e.TPM2_Startup = TPM_RC_INITIALIZE) :
    TPM2_Demo e = Run.after (startCalls e) (selfTestAndCapabilities e) := by
  rcases TPM2_Demo_checks e with ⟨hlt, _⟩ | ⟨_, hch⟩
  · omega
  · exact hch.of_passed (startCalls_passed e h0 h1 h2)

/-- C3: when `wc_InitRng` and `TPM2_Init` succeed and Startup returns the already-started
status, `TPM2_Demo` goes on exactly as after a Startup that returned success: the run makes
the calls up to Startup and continues with the same calls and the same returned value as the
run of the same environment with Startup answering success, the first of these calls being
SelfTest, and it returns 0 when all later checks pass.  For every other non-success status
of Startup the run makes the calls up to Startup, then only the calls of the `exit` label
(none of them a device command), and returns that status. -/
theorem C3_startup_already_started (e : Env) (h0 : 0 ≤ e.wc_InitRng)
    (h1 : e.TPM2_Init = TPM_RC_SUCCESS) :
    (e.TPM2_Startup = TPM_RC_INITIALIZE →
      ((TPM2_Demo e).trace = startCalls e ++ (selfTestAndCapabilities e).trace ∧
        (TPM2_Demo e).ret = (selfTestAndCapabilities e).ret) ∧
      ((TPM2_Demo { e with TPM2_Startup := TPM_RC_SUCCESS }).trace =
          startCalls { e with TPM2_Startup := TPM_RC_SUCCESS } ++
            (selfTestAndCapabilities e).trace ∧
        (TPM2_Demo { e with TPM2_Startup := TPM_RC_SUCCESS }).ret =
          (selfTestAndCapabilities e).ret) ∧
      (∃ post, (selfTestAndCapabilities e).trace =
        Event.TPM2_SelfTest YES e.TPM2_SelfTest :: post) ∧
      (TraceAll (fun ev => ev.checkPassed = true) (callsAfterStartup e) →
        (TPM2_Demo e).ret = 0)) ∧
    (e.TPM2_Startup ≠ TPM_RC_SUCCESS → e.TPM2_Startup ≠ TPM_RC_INITIALIZE →
      (TPM2_Demo e).trace = startCalls e ++ exitCalls e ∧
      (∀ x ∈ exitCalls e, x.isDeviceCmd = false) ∧
      (TPM2_Demo e).ret = e.TPM2_Startup) := by
  refine ⟨fun hI => ?_, fun hS hI => ?_⟩
  · have hr := TPM2_Demo_of_started e h0 h1 (Or.inr hI)
    have hr2 := TPM2_Demo_of_started { e with TPM2_Startup := TPM_RC_SUCCESS } h0 h1
      (Or.inl rfl)
    rw [selfTestAndCapabilities_startup] at hr2
    refine ⟨by rw [hr]; simp, by rw [hr2]; simp, ?_, ?_⟩
    · have hb : capCalls e =
          [] ++ Event.TPM2_SelfTest YES e.TPM2_SelfTest :: (capCalls e).tail := rfl
      obtain ⟨post, hpost, _⟩ := (selfTestAndCapabilities_checks e).progress hb (TraceAll_nil _)
      exact ⟨post, by simpa using hpost⟩
    · intro hp
      have hall : TraceAll (fun ev => ev.checkPassed = true) (fullCalls e) := by
        unfold fullCalls
        rw [TraceAll_append]
        exact ⟨startCalls_passed e h0 h1 (Or.inr hI), hp⟩
      obtain ⟨hrun, hs⟩ := TPM2_Demo_of_all_passed e hall
      rw [hrun]
      simp [hs, TPM_RC_SUCCESS]
  · rcases TPM2_Demo_checks e with ⟨hlt, _⟩ | ⟨_, hch⟩
    · omega
    · have hb : startCalls e =
          [Event.wolfCrypt_Init, Event.wc_InitRng e.wc_InitRng, Event.TPM2_Init e.TPM2_Init,
            Event.TPM2_SetSessionAuth TPM_RS_PW 32] ++
          Event.TPM2_Startup TPM_SU_CLEAR e.TPM2_Startup :: [] := rfl
      have hr := hch.stops_at hb
        (by simp [Event.checkPassed, h0, h1]) (by simp [Event.checkPassed, hS, hI])
      refine ⟨?_, exitCalls_not_device e, ?_⟩
      · rw [hr]
        simp [startCalls]
      · rw [hr]
        simp [Event.status]

/-- Witness of C3: two sample devices, one already started, on which the run returns 0, and one on
which Startup fails with `TPM_RC_FAILURE`, on which the run returns that status. -/
theorem C3_witness :
    (0 ≤ alreadyStartedEnv.wc_InitRng ∧ alreadyStartedEnv.TPM2_Init = TPM_RC_SUCCESS ∧
      alreadyStartedEnv.TPM2_Startup = TPM_RC_INITIALIZE ∧
      (TPM2_Demo alreadyStartedEnv).ret = 0) ∧
    (0 ≤ startupFailEnv.wc_InitRng ∧ startupFailEnv.TPM2_Init = TPM_RC_SUCCESS ∧
      startupFailEnv.TPM2_Startup ≠ TPM_RC_SUCCESS ∧
      startupFailEnv.TPM2_Startup ≠ TPM_RC_INITIALIZE ∧
      (TPM2_Demo startupFailEnv).ret = TPM_RC_FAILURE) :=
  have hp : TraceAll (fun ev => ev.checkPassed = true) (callsAfterStartup alreadyStartedEnv) := by
    rw [TraceAll_iff_all]
    decide
  have ha := (C3_startup_already_started alreadyStartedEnv (by decide) rfl).1 rfl
  have hb := (C3_startup_already_started startupFailEnv (by decide) rfl).2
    (by decide) (by decide)
  ⟨⟨by decide, rfl, rfl, ha.2.2.2 hp⟩, ⟨by decide, rfl, by decide, by decide, hb.2.2⟩⟩

theorem startCalls_stage (e : Env) : TraceAll (fun ev => ev.stage = 0) (startCalls e) := by
  simp [startCalls, Event.stage]

theorem capCalls_stage (e : Env) : TraceAll (fun ev => ev.stage = 0) (capCalls e) := by
  simp [capCalls, Event.stage]

theorem pcrCalls_stage (e : Env) : TraceAll (fun ev => ev.stage = 1) (pcrCalls e) := by
  unfold pcrCalls
  rw [TraceAll_append]
  exact ⟨loopReads_stage e _ _, by simp [Event.stage]⟩

theorem sessionCalls_stage (e : Env) : TraceAll (fun ev => ev.stage = 2) (sessionCalls e) := by
  simp [sessionCalls, Event.stage]

theorem finalCalls_stage (e : Env) : TraceAll (fun ev => ev.stage = 3) (finalCalls e) := by
  simp [finalCalls, Event.stage]

/-- A call of the register part or of a later part is only made when every check of
lines 190-288 passes. -/
theorem TPM2_Demo_of_reached_registers (e : Env) {X : Event}
    (hX : X ∈ (TPM2_Demo e).trace) (hs : X.stage = 1 ∨ X.stage = 2 ∨ X.stage = 3) :
    TraceAll (fun ev => ev.checkPassed = true) (startCalls e ++ capCalls e) ∧
    TPM2_Demo e = Run.after (startCalls e ++ capCalls e)
      (pcrReadAndExtend e (pcrCountOf e)) := by
  have hXe : X ∉ exitCalls e := not_mem_exitCalls e (by omega)
  have hXA : X ∉ startCalls e ++ capCalls e := by
    intro h
    rcases List.mem_append.1 h with h | h
    · have := startCalls_stage e X h; simp only at this; omega
    · have := capCalls_stage e X h; simp only at this; omega
  rcases TPM2_Demo_outcome e with ⟨_, hr⟩ | ⟨h0, hch⟩
  · exfalso
    rw [hr] at hX
    simp only [Run.after_trace, Run.returns_trace, List.append_nil, List.mem_cons,
      List.mem_singleton, List.not_mem_nil, or_false] at hX
    rcases hX with rfl | rfl <;> simp [Event.stage] at hs
  · have hb : fullCalls e = (startCalls e ++ capCalls e) ++
        (pcrCalls e ++ (sessionCalls e ++ finalCalls e)) := by
      simp [fullCalls]
    have hgood := hch.passed_of_mem hb hX hXA hXe
    refine ⟨hgood, ?_⟩
    have hg := (TraceAll_append _ _ _).1 hgood
    rcases TPM2_Demo_checks e with ⟨hlt, _⟩ | ⟨_, hch1⟩
    · omega
    · rw [hch1.of_passed hg.1, (selfTestAndCapabilities_checks e).of_passed hg.2,
        Run.after_after]

theorem countP_loopReads (e : Env) (i : Int) (k : Nat) :
    (loopReads e i k).countP Event.isPolicyGetDigest = 0 := by
  rw [List.countP_eq_zero]
  intro ev hev
  unfold loopReads at hev
  obtain ⟨j, _, rfl⟩ := List.mem_map.1 hev
  simp [Event.isPolicyGetDigest]

theorem countP_exitCalls (e : Env) :
    (exitCalls e).countP Event.isPolicyGetDigest = 0 := by
  rw [List.countP_eq_zero]
  intro ev hev
  rcases exitCalls_cases e ev hev with rfl | rfl | ⟨fd, rfl⟩ <;> simp [Event.isPolicyGetDigest]

/-- C6 (amended): on every fully successful run exactly one PolicyGetDigest is issued, the
one on the still-empty session right after StartAuthSession; PolicyPCR is followed
immediately by the FlushContext of the session, so the digest is not retrieved again after
the assertion. -/
theorem C6_single_policyGetDigest (e : Env) (t : Nat)
    (h : Event.TPM2_Shutdown t TPM_RC_SUCCESS ∈ (TPM2_Demo e).trace) :
    (TPM2_Demo e).trace.countP Event.isPolicyGetDigest = 1 ∧
    ∃ pre post hrc,
      (TPM2_Demo e).trace = pre ++
        [Event.TPM2_StartAuthSession (authSesCmd e) TPM_RC_SUCCESS e.TPM2_StartAuthSession.2,
         Event.TPM2_PolicyGetDigest e.TPM2_StartAuthSession.2 TPM_RC_SUCCESS
           e.TPM2_PolicyGetDigest.2,
         Event.wolfTPM_ReadPCR 0 TPM_ALG_SHA1 TPM_RC_SUCCESS (pcrArray e)
           e.wolfTPM_ReadPCR.2.2,
         Event.wc_Hash .WC_HASH_TYPE_SHA256 (pcrArray e) e.wolfTPM_ReadPCR.2.2
           WC_SHA256_DIGEST_SIZE hrc (hashArray e),
         Event.TPM2_PolicyPCR (policyPCRCmd e) TPM_RC_SUCCESS,
         Event.TPM2_FlushContext e.TPM2_StartAuthSession.2 TPM_RC_SUCCESS] ++ post ∧
      pre.countP Event.isPolicyGetDigest = 0 ∧ post.countP Event.isPolicyGetDigest = 0 := by
  have hp := all_passed_of_shutdown e t h
  obtain ⟨hr, _⟩ := TPM2_Demo_of_all_passed e hp
  have hses : TraceAll (fun ev => ev.checkPassed = true) (sessionCalls e) := by
    unfold fullCalls at hp
    simp only [TraceAll_append] at hp
    exact hp.2.2.2.1
  simp only [sessionCalls, TraceAll_cons, TraceAll_nil, Event.checkPassed,
    decide_eq_true_eq, and_true] at hses
  obtain ⟨_, h2, h3, h4, _, h6, h7⟩ := hses
  have htr : (TPM2_Demo e).trace = fullCalls e ++ exitCalls e := by rw [hr]; simp
  refine ⟨?_, startCalls e ++ (capCalls e ++ (pcrCalls e ++
      [Event.wc_RNG_GenerateBlock WC_SHA256_DIGEST_SIZE e.wc_RNG_GenerateBlock.1
        e.wc_RNG_GenerateBlock.2])), finalCalls e ++ exitCalls e,
      (hashAnswer e).1, ?_, ?_, ?_⟩
  · rw [htr]
    simp [fullCalls, startCalls, capCalls, pcrCalls, sessionCalls, finalCalls,
      countP_loopReads, countP_exitCalls, Event.isPolicyGetDigest]
  · rw [htr]
    simp [fullCalls, sessionCalls, h2, h3, h4, h6, h7]
  · simp [startCalls, capCalls, pcrCalls, countP_loopReads, Event.isPolicyGetDigest]
  · simp [finalCalls, countP_exitCalls, Event.isPolicyGetDigest]

/-- Counterexample to C6 as stated, at the sample device that answers every call with success:
the run
is fully successful, and no PolicyGetDigest is issued from PolicyPCR on (the call after
PolicyPCR is the FlushContext of the session). -/
theorem C6_counterexample :
    (TPM2_Demo okEnv).ret = 0 ∧
    (TPM2_Demo okEnv).trace.any Event.isShutdown = true ∧
    ((TPM2_Demo okEnv).trace.dropWhile (fun ev => !ev.isPolicyPCR)).any
      Event.isPolicyGetDigest = false ∧
    (((TPM2_Demo okEnv).trace.dropWhile (fun ev => !ev.isPolicyPCR)).take 2).map
      Event.isFlushContext = [false, true] := by
  decide

/-- Witness of C6 (amended): the sample device that answers every call with success. -/
theorem C6_witness :
    Event.TPM2_Shutdown TPM_SU_CLEAR TPM_RC_SUCCESS ∈ (TPM2_Demo okEnv).trace ∧
    (TPM2_Demo okEnv).trace.countP Event.isPolicyGetDigest = 1 :=
  have h : Event.TPM2_Shutdown TPM_SU_CLEAR TPM_RC_SUCCESS ∈ (TPM2_Demo okEnv).trace :=
    @List.getElem?_mem _ _ 45 _ rfl
  ⟨h, (C6_single_policyGetDigest okEnv TPM_SU_CLEAR h).1⟩

theorem callsBeforeRandom_stage (e : Env) :
    TraceAll (fun ev => ev.stage = 0) (callsBeforeRandom e) := by
  simp [callsBeforeRandom, startCalls, Event.stage]

theorem startCalls_capCalls_eq (e : Env) :
    startCalls e ++ capCalls e = callsBeforeRandom e ++
      [Event.TPM2_GetRandom RAND_GET_SZ e.TPM2_GetRandom.1 e.TPM2_GetRandom.2] := by
  simp [callsBeforeRandom, capCalls]

/-- A GetRandom that returned success with the requested number of bytes is only in a run in
which every check of lines 190-288 passes; the run then goes on with the read loop. -/
theorem TPM2_Demo_of_random_ok (e : Env)
    (h : Event.TPM2_GetRandom RAND_GET_SZ TPM_RC_SUCCESS RAND_GET_SZ ∈ (TPM2_Demo e).trace) :
    e.TPM2_GetRandom.1 = TPM_RC_SUCCESS ∧ e.TPM2_GetRandom.2 = RAND_GET_SZ ∧
    TPM2_Demo e = Run.after (callsBeforeRandom e ++
        [Event.TPM2_GetRandom RAND_GET_SZ TPM_RC_SUCCESS RAND_GET_SZ])
      (pcrReadAndExtend e (pcrCountOf e)) := by
  have hXe : Event.TPM2_GetRandom RAND_GET_SZ TPM_RC_SUCCESS RAND_GET_SZ ∉ exitCalls e :=
    not_mem_exitCalls e (by simp [Event.stage])
  have hXA : Event.TPM2_GetRandom RAND_GET_SZ TPM_RC_SUCCESS RAND_GET_SZ ∉
      callsBeforeRandom e := by
    simp [callsBeforeRandom, startCalls]
  have hrand : e.TPM2_GetRandom.1 = TPM_RC_SUCCESS ∧ e.TPM2_GetRandom.2 = RAND_GET_SZ := by
    rcases TPM2_Demo_mem_trace e h with h1 | h1
    · simp only [fullCalls, startCalls, capCalls, pcrCalls, sessionCalls, finalCalls,
        List.mem_append, List.mem_cons, List.mem_singleton, List.not_mem_nil, or_false,
        false_or, reduceCtorEq, Event.TPM2_GetRandom.injEq, true_and] at h1
      rcases h1 with h1 | h1
      · exact ⟨h1.1.symm, h1.2.symm⟩
      · exact absurd h1 (not_mem_loopReads e _ _ (by simp [Event.stage]))
    · exact absurd h1 hXe
  refine ⟨hrand.1, hrand.2, ?_⟩
  rcases TPM2_Demo_outcome e with ⟨_, hr⟩ | ⟨h0, hch⟩
  · exfalso
    rw [hr] at h
    simp at h
  · have hb : fullCalls e = callsBeforeRandom e ++
        (Event.TPM2_GetRandom RAND_GET_SZ e.TPM2_GetRandom.1 e.TPM2_GetRandom.2 ::
          (pcrCalls e ++ (sessionCalls e ++ finalCalls e))) := by
      simp [fullCalls, callsBeforeRandom, capCalls]
    have hgood := hch.passed_of_mem hb h hXA hXe
    have hall : TraceAll (fun ev => ev.checkPassed = true) (startCalls e ++ capCalls e) := by
      rw [startCalls_capCalls_eq, TraceAll_append]
      refine ⟨hgood, ?_⟩
      simp [Event.checkPassed, hrand.1, hrand.2]
    have hg := (TraceAll_append _ _ _).1 hall
    rcases TPM2_Demo_checks e with ⟨hlt, _⟩ | ⟨_, hch1⟩
    · omega
    · rw [hch1.of_passed hg.1, (selfTestAndCapabilities_checks e).of_passed hg.2,
        Run.after_after, startCalls_capCalls_eq, hrand.1, hrand.2]

theorem loopReads_eq_map_of_ok (e : Env) (k : Nat)
    (h : ∀ i : Nat, i < k → e.TPM2_PCR_Read_loop i = TPM_RC_SUCCESS) :
    loopReads e 0 k = (List.range k).map fun (i : Nat) =>
      Event.TPM2_PCR_Read (TPM2_SetupPCRSel TPM_ALG_SHA256 i) TPM_RC_SUCCESS := by
  unfold loopReads
  apply List.map_congr_left
  intro j hj
  have hj2 := h j (List.mem_range.1 hj)
  simp only [zero_add]
  rw [hj2]

/-- C7 (amended): for every register count `n` below `2 ^ 31` reported by the capability
query, in a run that gets past GetRandom: if every read of the loop succeeds, exactly the
reads of the indices 0, 1, ..., n-1 under SHA-256 are issued, in this order, between
GetRandom and PCR_Extend; if the read of index `k` is the first to fail, the reads of
0, ..., k are issued, then only the calls of the `exit` label, and the run returns the
status of the failed read. -/
theorem C7_reads_each_register_once (e : Env)
    (hn : e.TPM2_GetCapability_pcrCount.2 < 2 ^ 31)
    (hreach : Event.TPM2_GetRandom RAND_GET_SZ TPM_RC_SUCCESS RAND_GET_SZ ∈
      (TPM2_Demo e).trace) :
    ((∀ i : Nat, i < e.TPM2_GetCapability_pcrCount.2 →
        e.TPM2_PCR_Read_loop i = TPM_RC_SUCCESS) →
      ∃ pre rcE post, (TPM2_Demo e).trace =
        pre ++ Event.TPM2_GetRandom RAND_GET_SZ TPM_RC_SUCCESS RAND_GET_SZ ::
          ((List.range e.TPM2_GetCapability_pcrCount.2).map fun (i : Nat) =>
            Event.TPM2_PCR_Read (TPM2_SetupPCRSel TPM_ALG_SHA256 i) TPM_RC_SUCCESS) ++
          Event.TPM2_PCR_Extend extendCmd rcE :: post ∧
        TraceAll (fun ev => ev.stage = 0) pre) ∧
    (∀ k : Nat, k < e.TPM2_GetCapability_pcrCount.2 →
      (∀ i : Nat, i < k → e.TPM2_PCR_Read_loop i = TPM_RC_SUCCESS) →
      e.TPM2_PCR_Read_loop k ≠ TPM_RC_SUCCESS →
      ∃ pre, (TPM2_Demo e).trace =
        pre ++ Event.TPM2_GetRandom RAND_GET_SZ TPM_RC_SUCCESS RAND_GET_SZ ::
          ((List.range k).map fun (i : Nat) =>
            Event.TPM2_PCR_Read (TPM2_SetupPCRSel TPM_ALG_SHA256 i) TPM_RC_SUCCESS) ++
          Event.TPM2_PCR_Read (TPM2_SetupPCRSel TPM_ALG_SHA256 k) (e.TPM2_PCR_Read_loop k) ::
          exitCalls e ∧
        TraceAll (fun ev => ev.stage = 0) pre ∧
        (∀ x ∈ exitCalls e, x.isDeviceCmd = false) ∧
        (TPM2_Demo e).ret = e.TPM2_PCR_Read_loop k) := by
  obtain ⟨_, _, hr⟩ := TPM2_Demo_of_random_ok e hreach
  have hc : pcrCountOf e = (e.TPM2_GetCapability_pcrCount.2 : Int) := toInt32_of_lt _ hn
  have hcn : (pcrCountOf e).toNat = e.TPM2_GetCapability_pcrCount.2 := by rw [hc]; simp
  have hch := pcrReadAndExtend_checks e
  refine ⟨fun hok => ?_, fun k hk hok hbad => ?_⟩
  · have hb : pcrCalls e = loopReads e 0 e.TPM2_GetCapability_pcrCount.2 ++
        Event.TPM2_PCR_Extend extendCmd e.TPM2_PCR_Extend ::
        [Event.TPM2_PCR_Read (TPM2_SetupPCRSel TPM_ALG_SHA256 0) e.TPM2_PCR_Read_verify] := by
      unfold pcrCalls
      rw [hcn]
    have hgood : TraceAll (fun ev => ev.checkPassed = true)
        (loopReads e 0 e.TPM2_GetCapability_pcrCount.2) :=
      loopReads_checkPassed e 0 _ (fun j hj => by rw [zero_add]; exact hok j hj)
    obtain ⟨post, hpost, _⟩ := hch.progress hb hgood
    refine ⟨callsBeforeRandom e, e.TPM2_PCR_Extend, post, ?_, callsBeforeRandom_stage e⟩
    rw [hr, Run.after_trace, hpost, loopReads_eq_map_of_ok e _ hok]
    simp
  · obtain ⟨m, hm⟩ : ∃ m, e.TPM2_GetCapability_pcrCount.2 = k + (m + 1) :=
      ⟨e.TPM2_GetCapability_pcrCount.2 - k - 1, by omega⟩
    have hb : pcrCalls e = loopReads e 0 k ++
        Event.TPM2_PCR_Read (TPM2_SetupPCRSel TPM_ALG_SHA256 k) (e.TPM2_PCR_Read_loop k) ::
        (loopReads e ((0 : Int) + k + 1) m ++
          [Event.TPM2_PCR_Extend extendCmd e.TPM2_PCR_Extend,
           Event.TPM2_PCR_Read (TPM2_SetupPCRSel TPM_ALG_SHA256 0) e.TPM2_PCR_Read_verify]) := by
      unfold pcrCalls
      rw [hcn, hm, loopReads_add e k (m + 1) 0, loopReads_succ_left]
      simp
    have hgood : TraceAll (fun ev => ev.checkPassed = true) (loopReads e 0 k) :=
      loopReads_checkPassed e 0 _ (fun j hj => by rw [zero_add]; exact hok j hj)
    have hstop := hch.stops_at hb hgood (by simp [Event.checkPassed, hbad])
    refine ⟨callsBeforeRandom e, ?_, callsBeforeRandom_stage e, exitCalls_not_device e, ?_⟩
    · rw [hr, hstop, loopReads_eq_map_of_ok e _ hok]
      simp
    · rw [hr, hstop]
      simp [Event.status]

/-- Counterexample to C7 as stated, for a reported register count of `2 ^ 31`: stored into the
signed
`pcrCount` it is negative, so with every read succeeding the call after GetRandom is
PCR_Extend and no register is read before it. -/
theorem C7_counterexample :
    hugeCountEnv.TPM2_GetCapability_pcrCount.2 = 2 ^ 31 ∧
    pcrCountOf hugeCountEnv = -2147483648 ∧
    (TPM2_Demo hugeCountEnv).trace[10]? =
      some (Event.TPM2_GetRandom RAND_GET_SZ TPM_RC_SUCCESS RAND_GET_SZ) ∧
    (TPM2_Demo hugeCountEnv).trace[11]? =
      some (Event.TPM2_PCR_Extend extendCmd TPM_RC_SUCCESS) ∧
    ((TPM2_Demo hugeCountEnv).trace.takeWhile (fun ev => !ev.isPCR_Extend)).countP
      Event.isPCR_Read = 0 ∧
    (TPM2_Demo hugeCountEnv).ret = 0 :=
  ⟨by decide, by decide, rfl, rfl, by decide, by decide⟩

/-- Witness of C7 (amended): two sample devices with 24 registers, one on which every read succeeds,
and one on which the read of register 5 fails, where the run returns the status of that
read. -/
theorem C7_witness :
    (okEnv.TPM2_GetCapability_pcrCount.2 < 2 ^ 31 ∧
      Event.TPM2_GetRandom RAND_GET_SZ TPM_RC_SUCCESS RAND_GET_SZ ∈ (TPM2_Demo okEnv).trace ∧
      ∃ pre rcE post, (TPM2_Demo okEnv).trace =
        pre ++ Event.TPM2_GetRandom RAND_GET_SZ TPM_RC_SUCCESS RAND_GET_SZ ::
          ((List.range 24).map fun (i : Nat) =>
            Event.TPM2_PCR_Read (TPM2_SetupPCRSel TPM_ALG_SHA256 i) TPM_RC_SUCCESS) ++
          Event.TPM2_PCR_Extend extendCmd rcE :: post ∧
        TraceAll (fun ev => ev.stage = 0) pre) ∧
    (Event.TPM2_GetRandom RAND_GET_SZ TPM_RC_SUCCESS RAND_GET_SZ ∈
        (TPM2_Demo readFailEnv).trace ∧
      readFailEnv.TPM2_PCR_Read_loop 5 ≠ TPM_RC_SUCCESS ∧
      (TPM2_Demo readFailEnv).ret = TPM_RC_FAILURE) :=
  have h1 : Event.TPM2_GetRandom RAND_GET_SZ TPM_RC_SUCCESS RAND_GET_SZ ∈
      (TPM2_Demo okEnv).trace := @List.getElem?_mem _ _ 10 _ rfl
  have h2 : Event.TPM2_GetRandom RAND_GET_SZ TPM_RC_SUCCESS RAND_GET_SZ ∈
      (TPM2_Demo readFailEnv).trace := @List.getElem?_mem _ _ 10 _ rfl
  have hok : ∀ i : Nat, i < 5 → readFailEnv.TPM2_PCR_Read_loop i = TPM_RC_SUCCESS := by
    intro i hi
    have : (i : Int) ≠ 5 := by omega
    simp [readFailEnv, this]
  have hbad : readFailEnv.TPM2_PCR_Read_loop 5 ≠ TPM_RC_SUCCESS := by decide
  ⟨⟨by decide, h1,
      (C7_reads_each_register_once okEnv (by decide) h1).1 (fun _ _ => rfl)⟩,
    ⟨h2, hbad,
      ((C7_reads_each_register_once readFailEnv (by decide) h2).2 5 (by decide) hok hbad).elim
        fun _ hpre => hpre.2.2.2⟩⟩

theorem toInt32_le (v : Nat) : toInt32 v ≤ (v : Int) := by
  unfold toInt32
  have h1 : v % 2 ^ 32 ≤ v := Nat.mod_le _ _
  split_ifs <;> omega

theorem mem_loopReads (e : Env) (i : Int) (k : Nat) {x : Event} (h : x ∈ loopReads e i k) :
    ∃ j : Nat, j < k ∧ x = Event.TPM2_PCR_Read (TPM2_SetupPCRSel TPM_ALG_SHA256 (i + j))
      (e.TPM2_PCR_Read_loop (i + j)) := by
  unfold loopReads at h
  obtain ⟨j, hj, rfl⟩ := List.mem_map.1 h
  exact ⟨j, List.mem_range.1 hj, rfl⟩

/-- C10 (amended): every register index that `TPM2_Demo` passes to a PCR read, a PCR extend
or a PolicyPCR selection is non-negative and is either 0 or below the register count
reported by the successful capability query of the same run; every command other than
PCR_Read uses index 0, whatever count was reported.  Hence every index lies in
`[0, register_count)` whenever the device reports at least one register; a reported count
of 0 does not keep the run from using register 0. -/
theorem C10_register_indices (e : Env) (ev : Event) (i : Int)
    (h : ev ∈ (TPM2_Demo e).trace) (hi : ev.pcrIndex = some i) :
    Event.TPM2_GetCapability TPM_CAP_TPM_PROPERTIES TPM_PT_PCR_COUNT 1 TPM_RC_SUCCESS
      e.TPM2_GetCapability_pcrCount.2 ∈ (TPM2_Demo e).trace ∧
    0 ≤ i ∧
    (i < (e.TPM2_GetCapability_pcrCount.2 : Int) ∨ i = 0) ∧
    (ev.isPCR_Read = false → i = 0) ∧
    (1 ≤ e.TPM2_GetCapability_pcrCount.2 → i < (e.TPM2_GetCapability_pcrCount.2 : Int)) := by
  have hs : ev.stage = 1 ∨ ev.stage = 2 ∨ ev.stage = 3 := by
    cases ev <;> simp [Event.pcrIndex] at hi <;> simp [Event.stage]
  obtain ⟨hg, hr⟩ := TPM2_Demo_of_reached_registers e h hs
  have hcap : e.TPM2_GetCapability_pcrCount.1 = TPM_RC_SUCCESS := by
    have := hg (Event.TPM2_GetCapability TPM_CAP_TPM_PROPERTIES TPM_PT_PCR_COUNT 1
      e.TPM2_GetCapability_pcrCount.1 e.TPM2_GetCapability_pcrCount.2)
      (by simp [capCalls])
    simpa [Event.checkPassed] using this
  have hidx : 0 ≤ i ∧ (i < (e.TPM2_GetCapability_pcrCount.2 : Int) ∨ i = 0) ∧
      (ev.isPCR_Read = false → i = 0) := by
    rcases TPM2_Demo_mem_trace e h with h1 | h1
    · simp only [fullCalls, startCalls, capCalls, pcrCalls, sessionCalls, finalCalls,
        List.mem_append, List.mem_cons, List.mem_singleton, List.not_mem_nil, or_false] at h1
      rcases h1 with h1 | h1 | h1 | h1 | h1
      · rcases h1 with rfl | rfl | rfl | rfl | rfl <;> simp [Event.pcrIndex] at hi
      · rcases h1 with rfl | rfl | rfl | rfl | rfl | rfl <;> simp [Event.pcrIndex] at hi
      · rcases h1 with h1 | rfl | rfl
        · obtain ⟨j, hj, rfl⟩ := mem_loopReads e 0 _ h1
          simp only [Event.pcrIndex, TPM2_SetupPCRSel, zero_add, Option.some.injEq] at hi
          have hle := toInt32_le e.TPM2_GetCapability_pcrCount.2
          unfold pcrCountOf at hj
          refine ⟨by omega, Or.inl (by omega), by simp [Event.isPCR_Read]⟩
        · simp only [Event.pcrIndex, extendCmd, Option.some.injEq] at hi
          exact ⟨by omega, Or.inr hi.symm, fun _ => hi.symm⟩
        · simp only [Event.pcrIndex, TPM2_SetupPCRSel, Option.some.injEq] at hi
          exact ⟨by omega, Or.inr hi.symm, fun _ => hi.symm⟩
      · rcases h1 with rfl | rfl | rfl | rfl | rfl | rfl | rfl <;>
          simp only [Event.pcrIndex, policyPCRCmd, TPM2_SetupPCRSel, Option.some.injEq,
            reduceCtorEq] at hi <;>
          exact ⟨by omega, Or.inr hi.symm, fun _ => hi.symm⟩
      · rcases h1 with rfl | rfl <;> simp [Event.pcrIndex] at hi
    · exfalso
      rcases exitCalls_cases e ev h1 with rfl | rfl | ⟨fd, rfl⟩ <;> simp [Event.pcrIndex] at hi
  refine ⟨?_, hidx.1, hidx.2.1, hidx.2.2, fun h1 => ?_⟩
  · rw [hr, Run.after_trace, ← hcap]
    simp [capCalls]
  · rcases hidx.2.1 with h2 | h2
    · exact h2
    · omega

/-- Counterexample to C10 as stated, when the device reports a register count of 0: the run still
extends register 0, reads it twice and binds it into the policy, although no index lies in
the empty range. -/
theorem C10_counterexample :
    noRegisterEnv.TPM2_GetCapability_pcrCount.2 = 0 ∧
    (TPM2_Demo noRegisterEnv).trace.filterMap Event.pcrIndex = [0, 0, 0, 0] ∧
    (TPM2_Demo noRegisterEnv).trace.countP Event.isPCR_Extend = 1 ∧
    (TPM2_Demo noRegisterEnv).trace.countP Event.isPolicyPCR = 1 ∧
    (TPM2_Demo noRegisterEnv).ret = 0 := by
  decide

/-- Witness of C10 (amended): the sample device with 24 registers, for the last read of the
loop. -/
theorem C10_witness :
    Event.TPM2_PCR_Read (TPM2_SetupPCRSel TPM_ALG_SHA256 23) TPM_RC_SUCCESS ∈
      (TPM2_Demo okEnv).trace ∧
    (0 : Int) ≤ 23 ∧ (23 : Int) < (okEnv.TPM2_GetCapability_pcrCount.2 : Int) :=
  have h : Event.TPM2_PCR_Read (TPM2_SetupPCRSel TPM_ALG_SHA256 23) TPM_RC_SUCCESS ∈
      (TPM2_Demo okEnv).trace := @List.getElem?_mem _ _ 34 _ rfl
  have hc := C10_register_indices okEnv _ 23 h rfl
  ⟨h, hc.2.1, hc.2.2.2.2 (by decide)⟩

/-- The same defect on the three other paths named by C4: when the read of register 0
through `wolfTPM_ReadPCR`, the hash or PolicyPCR fails after the session was opened, the run
ends without any FlushContext. -/
theorem session_not_flushed_other_paths :
    ((TPM2_Demo readPCRFailEnv).trace.any (Event.isSessionStarted 0x03000000) = true ∧
      (TPM2_Demo readPCRFailEnv).trace.countP Event.isFlushContext = 0 ∧
      (TPM2_Demo readPCRFailEnv).ret = TPM_RC_FAILURE) ∧
    ((TPM2_Demo hashFailEnv).trace.any (Event.isSessionStarted 0x03000000) = true ∧
      (TPM2_Demo hashFailEnv).trace.countP Event.isFlushContext = 0 ∧
      (TPM2_Demo hashFailEnv).ret = -173) ∧
    ((TPM2_Demo policyPCRFailEnv).trace.any (Event.isSessionStarted 0x03000000) = true ∧
      (TPM2_Demo policyPCRFailEnv).trace.countP Event.isFlushContext = 0 ∧
      (TPM2_Demo policyPCRFailEnv).ret = TPM_RC_FAILURE) := by
  decide

/-- On the fully successful run of the sample device the session is flushed exactly once. -/
theorem session_flushed_once_on_success :
    (TPM2_Demo okEnv).trace.any (Event.isSessionStarted 0x03000000) = true ∧
    (TPM2_Demo okEnv).trace.countP (Event.isFlushOf 0x03000000) = 1 := by
  decide

/-- The calls of `wolfCrypt_Cleanup` and `wc_FreeRng` at the `exit` label: one each. -/
theorem exitCalls_counts (e : Env) :
    (exitCalls e).countP Event.isCleanup = 1 ∧ (exitCalls e).countP Event.isFreeRng = 1 := by
  unfold exitCalls
  cases h : e.gSpiDev with
  | none => simp [h, Event.isCleanup, Event.isFreeRng]
  | some fd =>
    by_cases hfd : fd ≥ 0 <;> simp [h, hfd, Event.isCleanup, Event.isFreeRng]

theorem fullCalls_stage (e : Env) : TraceAll (fun ev => ev.stage ≠ 4) (fullCalls e) := by
  unfold fullCalls
  simp only [TraceAll_append]
  refine ⟨(startCalls_stage e).imp ?_, (capCalls_stage e).imp ?_, (pcrCalls_stage e).imp ?_,
    (sessionCalls_stage e).imp ?_, (finalCalls_stage e).imp ?_⟩ <;>
  · intro ev h
    simp only at h
    omega

theorem countP_release_of_stage (l : List Event) (h : TraceAll (fun ev => ev.stage ≠ 4) l) :
    l.countP Event.isCleanup = 0 ∧ l.countP Event.isFreeRng = 0 := by
  simp only [List.countP_eq_zero]
  constructor <;>
  · intro ev hev hc
    have hs := h ev hev
    cases ev <;> simp [Event.isCleanup, Event.isFreeRng, Event.stage] at hc hs

/-- The path of the defect of C9 for every environment: when `wc_InitRng` returns a negative
value the run consists of `wolfCrypt_Init` and `wc_InitRng` and returns that value. -/
theorem TPM2_Demo_of_InitRng_failed (e : Env) (h : e.wc_InitRng < 0) :
    (TPM2_Demo e).trace = [Event.wolfCrypt_Init, Event.wc_InitRng e.wc_InitRng] ∧
    (TPM2_Demo e).ret = e.wc_InitRng := by
  rcases TPM2_Demo_checks e with ⟨_, hr⟩ | ⟨h0, _⟩
  · rw [hr]
    simp
  · omega

/-- The sibling paths of the defect of C9: whenever `wc_InitRng` succeeds, the run ends with
the calls of the `exit` label, so `wc_FreeRng` and `wolfCrypt_Cleanup` are executed exactly
once each, after the last device command. -/
theorem released_once_when_rng_ready (e : Env) (h0 : 0 ≤ e.wc_InitRng) :
    (∃ body, (TPM2_Demo e).trace = body ++ exitCalls e ∧
      TraceAll (fun ev => ev.stage ≠ 4) body) ∧
    (∀ x ∈ exitCalls e, x.isDeviceCmd = false) ∧
    (TPM2_Demo e).trace.countP Event.isCleanup = 1 ∧
    (TPM2_Demo e).trace.countP Event.isFreeRng = 1 := by
  have hbody : ∃ body, (TPM2_Demo e).trace = body ++ exitCalls e ∧
      TraceAll (fun ev => ev.stage ≠ 4) body := by
    rcases TPM2_Demo_outcome e with ⟨hlt, _⟩ | ⟨_, hch⟩
    · omega
    · rcases hch with ⟨passed, last, rest, hb, _, _, hr⟩ | ⟨_, hr⟩
      · refine ⟨passed ++ [last], by rw [hr]; simp, ?_⟩
        have hf := fullCalls_stage e
        rw [hb] at hf
        simp only [TraceAll_append, TraceAll_cons, TraceAll_nil, and_true] at hf ⊢
        exact ⟨hf.1, hf.2.1⟩
      · exact ⟨fullCalls e, by rw [hr]; simp, fullCalls_stage e⟩
  obtain ⟨body, hb, hs⟩ := hbody
  have hc := countP_release_of_stage body hs
  have hx := exitCalls_counts e
  refine ⟨⟨body, hb, hs⟩, exitCalls_not_device e, ?_, ?_⟩
  · rw [hb, List.countP_append, hc.1, hx.1]
  · rw [hb, List.countP_append, hc.2, hx.2]

end TPM2Demo
